import Mathlib

/-!
Verification development for the houdiniclaw HIP scene-file ingestion
subsystem.  The TypeScript sources are shallowly embedded: buffers become
`List Nat` of byte values, JavaScript numbers that may be `NaN` become the
`JNum` type, fallible code returns `Except`/`Option`, and the stateful
downloader/extractor code is modelled by explicit state passing.  Each
definition is annotated with the source function it embeds.
-/

set_option maxRecDepth 10000

namespace HClaw

/-! ## JavaScript number model

The CPIO reader does unchecked `parseInt(..., 16)` arithmetic, so a header
field can be `NaN`.  `JNum` models a JavaScript number restricted to the
integer values arising in the reader, plus `NaN`.  Bitwise operators
(`align4`'s `& ~3`) coerce `NaN` to `0`, and every comparison with `NaN`
is false, matching JavaScript semantics. -/
inductive JNum where
  | int : Int → JNum
  | nan : JNum
deriving DecidableEq, Repr

/-- JavaScript `+` on `JNum` (NaN absorbing). -/
def jadd : JNum → JNum → JNum
  | JNum.int a, JNum.int b => JNum.int (a + b)
  | _, _ => JNum.nan

/-- Model of `align4(value) = (value + 3) & ~3` (cpio-reader `align4`).
JavaScript bitwise operators convert `NaN` to `0`; on in-range integers
`(v + 3) & ~3` rounds `v + 3` down to a multiple of 4. -/
def jalign4 : JNum → Int
  | JNum.int n => (n + 3) - (n + 3) % 4
  | JNum.nan => 0

/-- JavaScript `>` against an integer: false when the left side is NaN. -/
def jgt : JNum → Int → Bool
  | JNum.int a, b => a > b
  | JNum.nan, _ => false

/-- `%TypedArray%.subarray` index coercion: `NaN → 0`, negative indices
count from the end, and everything is clamped to `[0, len]`. -/
def jsSubIdx (len : Nat) : JNum → Nat
  | JNum.int n => if n < 0 then ((len : Int) + n).toNat else min n.toNat len
  | JNum.nan => 0

/-- Model of `buffer.subarray(start, end)` for byte buffers. -/
def jsSubarray (buf : List Nat) (s e : JNum) : List Nat :=
  let a := jsSubIdx buf.length s
  let b := jsSubIdx buf.length e
  (buf.drop a).take (b - a)

/-- Bytes considered whitespace by JavaScript's `parseInt`/`Number`
(ASCII subset of the WhiteSpace/LineTerminator productions). -/
def isJsWsByte (b : Nat) : Bool :=
  b = 32 || b = 9 || b = 10 || b = 13 || b = 11 || b = 12

/-- Value of an ASCII hex digit byte. -/
def hexVal (b : Nat) : Option Nat :=
  if 48 ≤ b ∧ b ≤ 57 then some (b - 48)
  else if 97 ≤ b ∧ b ≤ 102 then some (b - 87)
  else if 65 ≤ b ∧ b ≤ 70 then some (b - 55)
  else none

/-- Model of JavaScript `parseInt(s, 16)` on a byte string: skip leading
whitespace, optional sign, optional `0x`/`0X`, then the longest hex-digit
run; `NaN` when that run is empty. -/
def parseIntHex (bs : List Nat) : JNum :=
  let bs1 := bs.dropWhile isJsWsByte
  let sgn : Int := if bs1.head? = some 45 then -1 else 1
  let bs2 := if bs1.head? = some 45 ∨ bs1.head? = some 43 then bs1.tail else bs1
  let bs3 := if bs2.head? = some 48 ∧ (bs2.tail.head? = some 120 ∨ bs2.tail.head? = some 88)
    then bs2.tail.tail else bs2
  let digits := bs3.takeWhile (fun b => (hexVal b).isSome)
  if digits = [] then JNum.nan
  else JNum.int (sgn * (digits.foldl (fun a b => 16 * a + ((hexVal b).getD 0)) 0 : Nat))

/-- First index `≥ from` at which `pat` occurs in `buf`
(model of `buffer.indexOf(pat, from, "ascii")`). -/
def indexOfFrom (buf pat : List Nat) (start : Nat) : Option Nat :=
  (List.range (buf.length + 1)).find? fun i =>
    start ≤ i && decide (pat.isPrefixOf (buf.drop i))

/-! ## CPIO "newc" reader (src `cpio-reader.ts`) -/

/-- Byte content of the ASCII magic string `"070701"`. -/
def cpioMagic : List Nat := [48, 55, 48, 55, 48, 49]

/-- Byte content of `"TRAILER!!!"`. -/
def trailerName : List Nat := [84, 82, 65, 73, 76, 69, 82, 33, 33, 33]

/-- One member of the CPIO archive (`CpioEntry` in cpio-reader.ts).
`filename` and `data` are kept as raw byte lists (the TypeScript decodes
the filename with UTF-8; the claims compare byte contents). -/
structure CpioEntry where
  filename : List Nat
  data : List Nat
  filesize : JNum
  mode : JNum
deriving DecidableEq, Repr

/-- Loop body of `parseCpioArchive`, with explicit fuel.  Each iteration of
the TypeScript `while` loop either returns (`some entries`) or recurses;
`none` means fuel ran out, which only happens when the loop fails to make
progress (the NaN header case).  `buffer.toString("ascii")` masks each byte
with `0x7F`, hence the `% 128` on header bytes. -/
def parseCpioLoop (fuel : Nat) (buf : List Nat) (offset : Int)
    (acc : List CpioEntry) : Option (List CpioEntry) :=
  match fuel with
  | 0 => none
  | fuel' + 1 =>
    if offset < (buf.length : Int) then
      if offset + 110 > (buf.length : Int) then some acc
      else
        let header := ((buf.drop offset.toNat).take 110).map (· % 128)
        if header.take 6 ≠ cpioMagic then
          match indexOfFrom buf cpioMagic (offset + 1).toNat with
          | none => some acc
          | some next => parseCpioLoop fuel' buf (next : Int) acc
        else
          let mode := parseIntHex ((header.drop 14).take 8)
          let filesize := parseIntHex ((header.drop 54).take 8)
          let namesize := parseIntHex ((header.drop 94).take 8)
          let nameOffset : Int := offset + 110
          let nameEnd := jadd (jadd (JNum.int nameOffset) namesize) (JNum.int (-1))
          let namePaddedEnd : Int := jalign4 (jadd (JNum.int nameOffset) namesize)
          if namePaddedEnd > (buf.length : Int) then some acc
          else
            let filename := jsSubarray buf (JNum.int nameOffset) nameEnd
            if filename = trailerName then some acc
            else
              let dataOffset : Int := namePaddedEnd
              let dataEnd := jadd (JNum.int dataOffset) filesize
              let dataPaddedEnd : Int := jalign4 dataEnd
              if jgt dataEnd (buf.length : Int) then some acc
              else
                parseCpioLoop fuel' buf dataPaddedEnd
                  (acc ++ [⟨filename, jsSubarray buf (JNum.int dataOffset) dataEnd,
                           filesize, mode⟩])
    else some acc

/-- `parseCpioArchive(buffer)` (cpio-reader.ts).  In every terminating run
each loop step strictly advances `offset`, so `buf.length + 1` units of
fuel suffice; `none` marks a non-terminating execution. -/
def parseCpioArchive (buf : List Nat) : Option (List CpioEntry) :=
  parseCpioLoop (buf.length + 1) buf 0 []

/-! ## A correctly assembled "newc" archive

The following builder follows the spec's description of the on-disk
format (§4.1 layout and §6 input archive format): 110-byte ASCII-hex
headers, the filename with its terminating NUL padded to a 4-byte
boundary, the payload padded to a 4-byte boundary, and a final
`TRAILER!!!` member.  It is the spec-side witness used to state the
round-trip law; it is not part of the TypeScript source. -/

/-- Lower-case ASCII hex digit byte for a value `< 16`. -/
def hexDigitByte (m : Nat) : Nat := if m < 10 then 48 + m else 87 + m

/-- 8-digit ASCII-hex encoding of `n < 2^32`, most significant first. -/
def toHex8 (n : Nat) : List Nat :=
  [hexDigitByte (n / 16 ^ 7 % 16), hexDigitByte (n / 16 ^ 6 % 16),
   hexDigitByte (n / 16 ^ 5 % 16), hexDigitByte (n / 16 ^ 4 % 16),
   hexDigitByte (n / 16 ^ 3 % 16), hexDigitByte (n / 16 ^ 2 % 16),
   hexDigitByte (n / 16 % 16), hexDigitByte (n % 16)]

/-- Padding needed to reach the next multiple of 4. -/
def pad4 (n : Nat) : Nat := (4 - n % 4) % 4

/-- A 110-byte "newc" header: magic, then inode, mode (regular file
`0x81A4`), uid, gid, nlink, mtime, filesize, devmajor, devminor,
rdevmajor, rdevminor, namesize, check. -/
def cpioHeaderBytes (fsize nsize : Nat) : List Nat :=
  cpioMagic ++ toHex8 0 ++ toHex8 0x81A4 ++ toHex8 0 ++ toHex8 0 ++ toHex8 0 ++
    toHex8 0 ++ toHex8 fsize ++ toHex8 0 ++ toHex8 0 ++ toHex8 0 ++ toHex8 0 ++
    toHex8 nsize ++ toHex8 0

/-- A file to be placed in an archive: raw name bytes and payload bytes. -/
structure FileSpec where
  name : List Nat
  data : List Nat
deriving DecidableEq, Repr

/-- The archive bytes of one member: header, NUL-terminated name padded
to 4 bytes (counted from the start of the header), payload padded to
4 bytes. -/
def cpioChunk (f : FileSpec) : List Nat :=
  cpioHeaderBytes f.data.length (f.name.length + 1) ++ f.name ++ [0] ++
    List.replicate (pad4 (110 + f.name.length + 1)) 0 ++
    f.data ++ List.replicate (pad4 f.data.length) 0

/-- The trailer member `TRAILER!!!` ending the archive. -/
def cpioTrailerChunk : List Nat :=
  cpioHeaderBytes 0 11 ++ trailerName ++ [0] ++ List.replicate (pad4 121) 0

/-- A correctly assembled archive: the members in order, then the trailer. -/
def buildNewcArchive (files : List FileSpec) : List Nat :=
  (files.map cpioChunk).flatten ++ cpioTrailerChunk

/-- Well-formedness of a member: the name is not the trailer marker, the
sizes fit their 8-hex-digit header fields, and name/payload are bytes. -/
def wfFile (f : FileSpec) : Prop :=
  f.name ≠ trailerName ∧ f.name.length + 1 < 2 ^ 32 ∧ f.data.length < 2 ^ 32 ∧
    (∀ b ∈ f.name, b < 256) ∧ (∀ b ∈ f.data, b < 256)

instance wfFile.instDecidable : DecidablePred wfFile := fun f => by
  unfold wfFile; infer_instance

/-- The `CpioEntry` the reader is expected to produce for a member. -/
def entryOf (f : FileSpec) : CpioEntry :=
  ⟨f.name, f.data, JNum.int f.data.length, JNum.int 0x81A4⟩

/-! ## A header with invalid hex in its `namesize` field

110 bytes: valid magic, all fields `00000000` except `namesize`, which is
`ZZZZZZZZ` (byte 90 is not a hex digit). -/
def badHexHeader : List Nat :=
  cpioMagic ++ toHex8 0 ++ toHex8 0 ++ toHex8 0 ++ toHex8 0 ++ toHex8 0 ++
    toHex8 0 ++ toHex8 0 ++ toHex8 0 ++ toHex8 0 ++ toHex8 0 ++ toHex8 0 ++
    List.replicate 8 90 ++ toHex8 0

example : parseCpioArchive (buildNewcArchive [⟨[97], [65, 66]⟩]) =
    some [⟨[97], [65, 66], JNum.int 2, JNum.int 0x81A4⟩] := by decide

example : parseCpioArchive (buildNewcArchive []) = some [] := by decide

example : parseCpioLoop 3 badHexHeader 0 [] = none := by decide

/-- On `badHexHeader`, one iteration of the reader loop leaves the offset
at 0: `parseInt("ZZZZZZZZ", 16)` is `NaN`, `align4(NaN)` is `0`, and both
bounds checks compare false against `NaN`, so the loop pushes an empty
entry and restarts at offset 0. -/
lemma badHexHeader_step (n : Nat) (acc : List CpioEntry) :
    parseCpioLoop (n + 1) badHexHeader 0 acc =
      parseCpioLoop n badHexHeader 0 (acc ++ [⟨[], [], JNum.int 0, JNum.int 0⟩]) := rfl

/-- The reader loop never terminates on `badHexHeader`, whatever the fuel. -/
lemma badHexHeader_loops (fuel : Nat) :
    ∀ acc, parseCpioLoop fuel badHexHeader 0 acc = none := by
  induction fuel with
  | zero => intro acc; rfl
  | succ n ih => intro acc; rw [badHexHeader_step]; exact ih _

/-! ## Round-trip lemmas for the reader -/

lemma hexDigitByte_range : ∀ m < 16,
    (48 ≤ hexDigitByte m ∧ hexDigitByte m ≤ 57) ∨
      (97 ≤ hexDigitByte m ∧ hexDigitByte m ≤ 102) := by decide

lemma hexVal_hexDigitByte : ∀ m < 16, hexVal (hexDigitByte m) = some m := by decide

lemma hexDigitByte_lt_128 (m : Nat) (h : m < 16) : hexDigitByte m < 128 := by
  rcases hexDigitByte_range m h with ⟨-, h2⟩ | ⟨-, h2⟩ <;> omega

lemma toHex8_lt_128 (n : Nat) : ∀ b ∈ toHex8 n, b < 128 := by
  simp only [toHex8, List.mem_cons, List.not_mem_nil, or_false]
  rintro b (rfl | rfl | rfl | rfl | rfl | rfl | rfl | rfl) <;>
    exact hexDigitByte_lt_128 _ (Nat.mod_lt _ (by norm_num))

lemma cpioHeaderBytes_lt_128 (fs ns : Nat) : ∀ b ∈ cpioHeaderBytes fs ns, b < 128 := by
  intro b hb
  simp only [cpioHeaderBytes, List.mem_append] at hb
  rcases hb with ((((((((((((hb | hb) | hb) | hb) | hb) | hb) | hb) | hb) | hb) | hb) | hb) | hb) | hb) | hb
  all_goals first
    | exact toHex8_lt_128 _ _ hb
    | (simp only [cpioMagic, List.mem_cons, List.not_mem_nil, or_false] at hb
       rcases hb with rfl | rfl | rfl | rfl | rfl | rfl <;> norm_num)

lemma map_mod128_of_lt (l : List Nat) (h : ∀ b ∈ l, b < 128) : l.map (· % 128) = l := by
  induction l with
  | nil => rfl
  | cons b l ih =>
    simp only [List.map_cons]
    rw [Nat.mod_eq_of_lt (h b (by simp)), ih fun x hx => h x (by simp [hx])]

lemma cpioHeaderBytes_length (fs ns : Nat) : (cpioHeaderBytes fs ns).length = 110 := rfl

lemma cpioHeaderBytes_take6 (fs ns : Nat) : (cpioHeaderBytes fs ns).take 6 = cpioMagic := rfl

lemma cpioHeaderBytes_mode (fs ns : Nat) :
    ((cpioHeaderBytes fs ns).drop 14).take 8 = toHex8 0x81A4 := rfl

lemma cpioHeaderBytes_filesize (fs ns : Nat) :
    ((cpioHeaderBytes fs ns).drop 54).take 8 = toHex8 fs := rfl

lemma cpioHeaderBytes_namesize (fs ns : Nat) :
    ((cpioHeaderBytes fs ns).drop 94).take 8 = toHex8 ns := rfl

lemma takeWhile_hex_map (ds : List Nat) (h : ∀ d ∈ ds, d < 16) :
    (ds.map hexDigitByte).takeWhile (fun b => (hexVal b).isSome) = ds.map hexDigitByte := by
  induction ds with
  | nil => rfl
  | cons d ds ih =>
    have hd := hexVal_hexDigitByte d (h d (by simp))
    simp only [List.map_cons, List.takeWhile_cons, hd, Option.isSome_some, if_true]
    rw [ih fun x hx => h x (by simp [hx])]

lemma parseIntHex_map_hexDigit (ds : List Nat) (h : ∀ d ∈ ds, d < 16) (hne : ds ≠ []) :
    parseIntHex (ds.map hexDigitByte) =
      JNum.int (ds.foldl (fun a d => 16 * a + d) 0 : Nat) := by
  obtain ⟨d0, ds', rfl⟩ := List.exists_cons_of_ne_nil hne
  have h0 : d0 < 16 := h d0 (by simp)
  have hr0 : 48 ≤ hexDigitByte d0 ∧ hexDigitByte d0 ≤ 102 := by
    rcases hexDigitByte_range d0 h0 with ⟨x, y⟩ | ⟨x, y⟩ <;> exact ⟨by omega, by omega⟩
  have hws : isJsWsByte (hexDigitByte d0) = false := by
    simp only [isJsWsByte, Bool.or_eq_false_iff, decide_eq_false_iff_not]
    omega
  unfold parseIntHex
  simp only [List.map_cons, List.dropWhile_cons, hws, Bool.false_eq_true, if_false]
  have h45 : ¬((hexDigitByte d0 :: ds'.map hexDigitByte).head? = some 45) := by
    simp only [List.head?_cons, Option.some.injEq]; omega
  have h4543 : ¬((hexDigitByte d0 :: ds'.map hexDigitByte).head? = some 45 ∨
      (hexDigitByte d0 :: ds'.map hexDigitByte).head? = some 43) := by
    simp only [List.head?_cons, Option.some.injEq, not_or]
    constructor <;> omega
  rw [if_neg h45, if_neg h4543]
  have hx : ¬((hexDigitByte d0 :: ds'.map hexDigitByte).head? = some 48 ∧
      ((hexDigitByte d0 :: ds'.map hexDigitByte).tail.head? = some 120 ∨
       (hexDigitByte d0 :: ds'.map hexDigitByte).tail.head? = some 88)) := by
    rintro ⟨-, hx2⟩
    cases ds' with
    | nil => simp at hx2
    | cons d1 ds'' =>
      simp only [List.map_cons, List.tail_cons, List.head?_cons, Option.some.injEq] at hx2
      rcases hexDigitByte_range d1 (h d1 (by simp)) with h1 | h1 <;>
        rcases hx2 with h2 | h2 <;> omega
  rw [if_neg hx]
  rw [show (hexDigitByte d0 :: ds'.map hexDigitByte) = (d0 :: ds').map hexDigitByte from rfl]
  rw [takeWhile_hex_map _ h]
  have hne' : (d0 :: ds').map hexDigitByte ≠ [] := by simp
  rw [if_neg hne']
  rw [List.foldl_map]
  have hfold : ((d0 :: ds').foldl (fun (a : Nat) b => 16 * a + (hexVal (hexDigitByte b)).getD 0) 0) =
      ((d0 :: ds').foldl (fun (a : Nat) d => 16 * a + d) 0) := by
    apply List.foldl_ext
    intro a d hd
    rw [hexVal_hexDigitByte d (h d hd)]
    rfl
  rw [hfold, one_mul]

lemma foldl16_toHexDigits (n : Nat) (h : n < 2 ^ 32) :
    ([n / 16 ^ 7 % 16, n / 16 ^ 6 % 16, n / 16 ^ 5 % 16, n / 16 ^ 4 % 16,
      n / 16 ^ 3 % 16, n / 16 ^ 2 % 16, n / 16 % 16, n % 16].foldl
        (fun a d => 16 * a + d) 0) = n := by
  simp only [List.foldl_cons, List.foldl_nil]
  norm_num
  omega

lemma parseIntHex_toHex8 (n : Nat) (h : n < 2 ^ 32) :
    parseIntHex (toHex8 n) = JNum.int n := by
  have : toHex8 n = [n / 16 ^ 7 % 16, n / 16 ^ 6 % 16, n / 16 ^ 5 % 16, n / 16 ^ 4 % 16,
      n / 16 ^ 3 % 16, n / 16 ^ 2 % 16, n / 16 % 16, n % 16].map hexDigitByte := rfl
  rw [this, parseIntHex_map_hexDigit _ ?_ (by simp), foldl16_toHexDigits n h]
  intro d hd
  simp only [List.mem_cons, List.not_mem_nil, or_false] at hd
  rcases hd with rfl | rfl | rfl | rfl | rfl | rfl | rfl | rfl <;>
    exact Nat.mod_lt _ (by norm_num)

lemma jsSubarray_int (buf : List Nat) (a b : Int) (h0 : 0 ≤ a) (hb0 : 0 ≤ b)
    (ha : a ≤ (buf.length : Int)) (hb : b ≤ (buf.length : Int)) :
    jsSubarray buf (JNum.int a) (JNum.int b) =
      (buf.drop a.toNat).take (b.toNat - a.toNat) := by
  simp only [jsSubarray, jsSubIdx]
  rw [if_neg (by omega : ¬ a < 0), if_neg (by omega : ¬ b < 0),
    Nat.min_eq_left (by omega), Nat.min_eq_left (by omega)]

lemma take_len_append {α : Type} (a b : List α) {n : Nat} (h : n = a.length) :
    (a ++ b).take n = a := by
  subst h; exact List.take_left a b

lemma drop_len_append {α : Type} (a b : List α) {n : Nat} (h : n = a.length) :
    (a ++ b).drop n = b := by
  subst h; exact List.drop_left a b

lemma cpioChunk_length (f : FileSpec) :
    (cpioChunk f).length = 110 + f.name.length + 1 + pad4 (110 + f.name.length + 1)
      + f.data.length + pad4 f.data.length := by
  simp only [cpioChunk, List.length_append, cpioHeaderBytes_length, List.length_replicate,
    List.length_cons, List.length_nil]

lemma cpioTrailerChunk_length : cpioTrailerChunk.length = 124 := rfl

lemma pad4_total (n : Nat) : (n + pad4 n) % 4 = 0 := by
  simp only [pad4]; omega

lemma cpioChunk_length_mod4 (f : FileSpec) : (cpioChunk f).length % 4 = 0 := by
  rw [cpioChunk_length]
  have h1 := pad4_total (110 + f.name.length + 1)
  have h2 := pad4_total f.data.length
  omega

/-- One loop iteration of the reader consumes a well-formed member chunk
placed at a 4-aligned offset and appends the decoded entry. -/
lemma parseCpioLoop_step (k : Nat) (buf : List Nat) (o : Nat) (acc : List CpioEntry)
    (f : FileSpec) (rest : List Nat) (hwf : wfFile f) (ho4 : o % 4 = 0)
    (holen : o ≤ buf.length) (hdrop : buf.drop o = cpioChunk f ++ rest) :
    parseCpioLoop (k + 1) buf (o : Int) acc =
      parseCpioLoop k buf ((o + (cpioChunk f).length : Nat) : Int) (acc ++ [entryOf f]) := by
  obtain ⟨hname, hns, hds, hnb, hdb⟩ := hwf
  have hCL := cpioChunk_length f
  have hlen : buf.length = o + (cpioChunk f).length + rest.length := by
    have h1 : (buf.drop o).length = buf.length - o := by simp
    rw [hdrop] at h1
    simp only [List.length_append] at h1
    omega
  have hdrop110 : (buf.drop o).take 110 = cpioHeaderBytes f.data.length (f.name.length + 1) := by
    rw [hdrop]
    simp only [cpioChunk, List.append_assoc]
    exact take_len_append _ _ (cpioHeaderBytes_length _ _).symm
  have hH : ((buf.drop o).take 110).map (· % 128) =
      cpioHeaderBytes f.data.length (f.name.length + 1) := by
    rw [hdrop110]; exact map_mod128_of_lt _ (cpioHeaderBytes_lt_128 _ _)
  have hdropname : (buf.drop (o + 110)).take f.name.length = f.name := by
    rw [← List.drop_drop, hdrop]
    simp only [cpioChunk, List.append_assoc]
    rw [drop_len_append _ _ (cpioHeaderBytes_length _ _).symm]
    exact take_len_append _ _ rfl
  have hdropdata : (buf.drop (o + (110 + f.name.length + 1 + pad4 (110 + f.name.length + 1)))).take
      f.data.length = f.data := by
    rw [← List.drop_drop, hdrop]
    simp only [cpioChunk]
    have hre : cpioHeaderBytes f.data.length (f.name.length + 1) ++ f.name ++ [0] ++
        List.replicate (pad4 (110 + f.name.length + 1)) 0 ++ f.data ++
        List.replicate (pad4 f.data.length) 0 ++ rest =
        (cpioHeaderBytes f.data.length (f.name.length + 1) ++ f.name ++ [0] ++
          List.replicate (pad4 (110 + f.name.length + 1)) 0) ++
        (f.data ++ (List.replicate (pad4 f.data.length) 0 ++ rest)) := by
      simp [List.append_assoc]
    rw [hre, drop_len_append _ _ (by
      simp only [List.length_append, cpioHeaderBytes_length, List.length_cons,
        List.length_nil, List.length_replicate] <;> omega)]
    exact take_len_append _ _ rfl
  simp only [parseCpioLoop, Int.toNat_natCast]
  rw [if_pos (by push_cast; omega : ((o : Nat) : Int) < (buf.length : Int))]
  rw [if_neg (by push_cast; omega : ¬ ((o : Nat) : Int) + 110 > (buf.length : Int))]
  rw [hH]
  rw [if_neg (not_not_intro (cpioHeaderBytes_take6 _ _))]
  rw [cpioHeaderBytes_mode, cpioHeaderBytes_filesize, cpioHeaderBytes_namesize,
    parseIntHex_toHex8 _ hds, parseIntHex_toHex8 _ hns,
    parseIntHex_toHex8 0x81A4 (by norm_num)]
  simp only [jadd]
  rw [jsSubarray_int buf _ _ (by push_cast; omega) (by push_cast; omega)
    (by push_cast; omega) (by push_cast; omega)]
  rw [show ((o : Int) + 110).toNat = o + 110 from by omega]
  rw [show ((o : Int) + 110 + ((f.name.length + 1 : Nat) : Int) + -1).toNat
      = o + 110 + f.name.length from by push_cast; omega]
  rw [show o + 110 + f.name.length - (o + 110) = f.name.length from by omega]
  rw [hdropname]
  have hnp : jalign4 (JNum.int ((o : Int) + 110 + ((f.name.length + 1 : Nat) : Int))) =
      ((o + (110 + f.name.length + 1 + pad4 (110 + f.name.length + 1)) : Nat) : Int) := by
    simp only [jalign4, pad4]
    push_cast
    omega
  rw [hnp]
  rw [if_neg (by push_cast; omega : ¬ ((o + (110 + f.name.length + 1 + pad4 (110 + f.name.length + 1))
    : Nat) : Int) > (buf.length : Int))]
  rw [if_neg hname]
  rw [if_neg (by
    simp only [jgt, decide_eq_true_eq]
    push_cast
    omega)]
  rw [jsSubarray_int buf _ _ (by push_cast; omega) (by push_cast; omega)
    (by push_cast; omega) (by push_cast; omega)]
  rw [show (((o + (110 + f.name.length + 1 + pad4 (110 + f.name.length + 1)) : Nat) : Int)).toNat
      = o + (110 + f.name.length + 1 + pad4 (110 + f.name.length + 1)) from by omega]
  rw [show (((o + (110 + f.name.length + 1 + pad4 (110 + f.name.length + 1)) : Nat) : Int)
      + ((f.data.length : Nat) : Int)).toNat
      = o + (110 + f.name.length + 1 + pad4 (110 + f.name.length + 1)) + f.data.length
      from by push_cast; omega]
  rw [show o + (110 + f.name.length + 1 + pad4 (110 + f.name.length + 1)) + f.data.length
      - (o + (110 + f.name.length + 1 + pad4 (110 + f.name.length + 1))) = f.data.length
      from by omega]
  rw [hdropdata]
  have hdp : jalign4 (JNum.int (((o + (110 + f.name.length + 1 + pad4 (110 + f.name.length + 1))
      : Nat) : Int) + ((f.data.length : Nat) : Int))) =
      ((o + (cpioChunk f).length : Nat) : Int) := by
    simp only [jalign4]
    rw [hCL]
    have h2 := pad4_total f.data.length
    simp only [pad4] at h2 ⊢
    push_cast
    omega
  rw [hdp]
  rfl

/-- When the loop reaches the trailer member it stops and returns the
accumulated entries. -/
lemma parseCpioLoop_stop (k : Nat) (buf : List Nat) (o : Nat) (acc : List CpioEntry)
    (ho4 : o % 4 = 0) (holen : o ≤ buf.length) (hdrop : buf.drop o = cpioTrailerChunk) :
    parseCpioLoop (k + 1) buf (o : Int) acc = some acc := by
  have hlen : buf.length = o + 124 := by
    have h1 : (buf.drop o).length = buf.length - o := by simp
    rw [hdrop, cpioTrailerChunk_length] at h1
    omega
  have hH : ((buf.drop o).take 110).map (· % 128) = cpioHeaderBytes 0 11 := by
    rw [hdrop]; decide
  have hname : (buf.drop (o + 110)).take 10 = trailerName := by
    rw [← List.drop_drop, hdrop]; decide
  simp only [parseCpioLoop, Int.toNat_natCast]
  rw [if_pos (by push_cast; omega : ((o : Nat) : Int) < (buf.length : Int))]
  rw [if_neg (by push_cast; omega : ¬ ((o : Nat) : Int) + 110 > (buf.length : Int))]
  rw [hH]
  rw [if_neg (not_not_intro (cpioHeaderBytes_take6 _ _))]
  rw [cpioHeaderBytes_mode, cpioHeaderBytes_filesize, cpioHeaderBytes_namesize,
    parseIntHex_toHex8 0 (by norm_num), parseIntHex_toHex8 11 (by norm_num),
    parseIntHex_toHex8 0x81A4 (by norm_num)]
  simp only [jadd]
  have hnp : jalign4 (JNum.int ((o : Int) + 110 + ((11 : Nat) : Int))) =
      ((o + 124 : Nat) : Int) := by
    simp only [jalign4]
    push_cast
    omega
  rw [hnp]
  rw [if_neg (by push_cast; omega : ¬ ((o + 124 : Nat) : Int) > (buf.length : Int))]
  rw [jsSubarray_int buf _ _ (by push_cast; omega) (by push_cast; omega)
    (by push_cast; omega) (by push_cast; omega)]
  rw [show ((o : Int) + 110).toNat = o + 110 from by omega]
  rw [show ((o : Int) + 110 + ((11 : Nat) : Int) + -1).toNat = o + 120 from by push_cast; omega]
  rw [show o + 120 - (o + 110) = 10 from by omega]
  rw [hname]
  rw [if_pos rfl]

lemma length_le_flatten_chunks (files : List FileSpec) :
    files.length ≤ ((files.map cpioChunk).flatten).length := by
  induction files with
  | nil => simp
  | cons f rest ih =>
    simp only [List.map_cons, List.flatten_cons, List.length_append, List.length_cons]
    have h1 := cpioChunk_length f
    omega

/-- The reader, started at a 4-aligned offset in front of the assembled
chunks of well-formed members followed by the trailer, returns the
accumulated entries extended by the members' decoded entries. -/
lemma parseCpioLoop_build (files : List FileSpec) :
    ∀ (pre : List Nat) (acc : List CpioEntry) (k : Nat),
      (∀ f ∈ files, wfFile f) → pre.length % 4 = 0 → files.length ≤ k →
      parseCpioLoop (k + 1)
        (pre ++ ((files.map cpioChunk).flatten ++ cpioTrailerChunk))
        ((pre.length : Nat) : Int) acc = some (acc ++ files.map entryOf) := by
  induction files with
  | nil =>
    intro pre acc k hwf hpre hfuel
    rw [parseCpioLoop_stop k _ _ _ hpre (by simp) (by
      simp only [List.map_nil, List.flatten_nil, List.nil_append]
      exact drop_len_append _ _ rfl)]
    simp
  | cons f rest ih =>
    intro pre acc k hwf hpre hfuel
    obtain ⟨k', rfl⟩ : ∃ k', k = k' + 1 := ⟨k - 1, by simp at hfuel; omega⟩
    have hflat : (((f :: rest).map cpioChunk).flatten : List Nat) =
        cpioChunk f ++ (rest.map cpioChunk).flatten := by simp
    rw [hflat]
    have hdrop : (pre ++ (cpioChunk f ++ (rest.map cpioChunk).flatten ++ cpioTrailerChunk)).drop
        pre.length = cpioChunk f ++ ((rest.map cpioChunk).flatten ++ cpioTrailerChunk) := by
      rw [drop_len_append _ _ rfl, List.append_assoc]
    rw [parseCpioLoop_step (k' + 1) _ pre.length acc f
      ((rest.map cpioChunk).flatten ++ cpioTrailerChunk)
      (hwf f (by simp)) hpre (by simp) hdrop]
    have hregroup : pre ++ (cpioChunk f ++ (rest.map cpioChunk).flatten ++ cpioTrailerChunk) =
        (pre ++ cpioChunk f) ++ ((rest.map cpioChunk).flatten ++ cpioTrailerChunk) := by
      simp [List.append_assoc]
    rw [hregroup]
    rw [show pre.length + (cpioChunk f).length = (pre ++ cpioChunk f).length from by simp]
    rw [ih (pre ++ cpioChunk f) (acc ++ [entryOf f]) k'
      (fun g hg => hwf g (by simp [hg]))
      (by simp only [List.length_append]
          have := cpioChunk_length_mod4 f
          omega)
      (by simp at hfuel; omega)]
    simp

/-- C1: for every correctly assembled CPIO "newc" archive containing N
well-formed entries followed by the `TRAILER!!!` trailer, `parseCpioArchive`
returns exactly N entries, in file order, whose filenames and payload bytes
equal the originals. -/
theorem claim1_cpio_roundtrip (files : List FileSpec) (hwf : ∀ f ∈ files, wfFile f) :
    parseCpioArchive (buildNewcArchive files) = some (files.map entryOf) := by
  unfold parseCpioArchive buildNewcArchive
  have h := parseCpioLoop_build files [] []
    ((files.map cpioChunk).flatten ++ cpioTrailerChunk).length hwf (by simp)
    (by
      have h1 := length_le_flatten_chunks files
      simp only [List.length_append]
      omega)
  simpa using h

/-- Witness for C1 at a one-member archive (name `"a"`, payload `"AB"`). -/
theorem claim1_cpio_roundtrip_spot :
    (∀ f ∈ [FileSpec.mk [97] [65, 66]], wfFile f) ∧
      parseCpioArchive (buildNewcArchive [FileSpec.mk [97] [65, 66]]) =
        some ([FileSpec.mk [97] [65, 66]].map entryOf) :=
  ⟨by decide, claim1_cpio_roundtrip [FileSpec.mk [97] [65, 66]] (by decide)⟩

/-! ## gzip decompression model (`zlib.gunzipSync`)

`readCpioFromBuffer` calls Node's `gunzipSync`.  We model it on the
subset of gzip streams whose deflate payload consists of stored
(`BTYPE = 00`) blocks and whose FLG has at most FTEXT/FEXTRA set; other
inputs are reported as errors.  The CRC-32 and ISIZE trailer checks are
performed as zlib does. -/

/-- One bit step of the reflected CRC-32 (polynomial `0xEDB88320`). -/
def crcBitStep (c : Nat) : Nat := if c % 2 = 1 then (c / 2) ^^^ 0xEDB88320 else c / 2

/-- The byte-table entry: eight bit steps. -/
def crcTable (b : Nat) : Nat :=
  crcBitStep (crcBitStep (crcBitStep (crcBitStep
    (crcBitStep (crcBitStep (crcBitStep (crcBitStep b)))))))

/-- One byte of the reflected CRC-32 in standard table form. -/
def crc32Update (crc : Nat) (b : Nat) : Nat :=
  (crc / 256) ^^^ crcTable ((crc ^^^ b) % 256)

/-- CRC-32 of a byte list (matches `zlib.crc32`). -/
def crc32 (bs : List Nat) : Nat :=
  (bs.foldl crc32Update 0xFFFFFFFF) ^^^ 0xFFFFFFFF

/-- Little-endian 16-bit value. -/
def le16 (a b : Nat) : Nat := a + 256 * b

/-- Little-endian 32-bit value. -/
def le32 (a b c d : Nat) : Nat := a + 256 * b + 65536 * c + 16777216 * d

/-- Inflate a sequence of stored deflate blocks; returns the decompressed
bytes and the remaining input after the final block. -/
def inflateStored (fuel : Nat) (bs : List Nat) (out : List Nat) :
    Except String (List Nat × List Nat) :=
  match fuel with
  | 0 => Except.error "inflate: no progress"
  | fuel + 1 =>
    match bs with
    | [] => Except.error "unexpected end of deflate data"
    | bh :: rest =>
      let bfinal := bh % 2
      let btype := bh / 2 % 4
      if btype ≠ 0 then Except.error "unsupported deflate block type in model"
      else
        match rest with
        | l0 :: l1 :: n0 :: n1 :: rest2 =>
          let len := le16 l0 l1
          if le16 n0 n1 ≠ 0xFFFF - len then Except.error "invalid stored block lengths"
          else if rest2.length < len then Except.error "unexpected end of stored block"
          else if bfinal = 1 then Except.ok (out ++ rest2.take len, rest2.drop len)
          else inflateStored fuel (rest2.drop len) (out ++ rest2.take len)
        | _ => Except.error "unexpected end of stored block header"

/-- `zlib.gunzipSync` on the stored-block subset: parse the 10-byte gzip
header, skip an FEXTRA field when present, inflate, then verify the
CRC-32 and ISIZE trailer. -/
def gunzipSyncModel (bs : List Nat) : Except String (List Nat) :=
  match bs with
  | 31 :: 139 :: 8 :: flg :: _t0 :: _t1 :: _t2 :: _t3 :: _xfl :: _os :: rest =>
    if flg / 2 % 2 = 1 ∨ flg / 8 % 2 = 1 ∨ flg / 16 % 2 = 1 then
      Except.error "gzip flags unsupported in model"
    else
      let restE : Except String (List Nat) :=
        if flg / 4 % 2 = 1 then
          match rest with
          | x0 :: x1 :: r =>
            if r.length < le16 x0 x1 then Except.error "unexpected end of file"
            else Except.ok (r.drop (le16 x0 x1))
          | _ => Except.error "unexpected end of file"
        else Except.ok rest
      match restE with
      | Except.error e => Except.error e
      | Except.ok rest2 =>
        match inflateStored (rest2.length + 1) rest2 [] with
        | Except.error e => Except.error e
        | Except.ok (out, tail) =>
          match tail with
          | c0 :: c1 :: c2 :: c3 :: i0 :: i1 :: i2 :: i3 :: _ =>
            if le32 c0 c1 c2 c3 ≠ crc32 out then Except.error "incorrect data check"
            else if le32 i0 i1 i2 i3 ≠ out.length % 2 ^ 32 then
              Except.error "incorrect length check"
            else Except.ok out
          | _ => Except.error "unexpected end of file"
  | _ => Except.error "incorrect header check"

/-! ## `readCpioFromBuffer` and the text filter (cpio-reader.ts) -/

/-- The Houdini prefix-skip logic of `readCpioFromBuffer` on the
(possibly decompressed) bytes: accept the magic at offset 0, else at
offset 4, else anywhere in the first 256 bytes, else throw. -/
def readCpioRaw (raw : List Nat) : Except String (Option (List CpioEntry)) :=
  let asStr := (jsSubarray raw (JNum.int 0) (JNum.int 6)).map (· % 128)
  if asStr = cpioMagic then Except.ok (parseCpioArchive raw)
  else
    let after4 := (jsSubarray raw (JNum.int 4) (JNum.int 10)).map (· % 128)
    if after4 = cpioMagic then Except.ok (parseCpioArchive (raw.drop 4))
    else
      match indexOfFrom raw cpioMagic 0 with
      | some idx =>
        if idx < 256 then Except.ok (parseCpioArchive (raw.drop idx))
        else Except.error "Not a valid CPIO archive: magic not found"
      | none => Except.error "Not a valid CPIO archive: magic not found"

/-- `readCpioFromBuffer(buffer)`: gunzip only when the buffer starts with
`1f 8b`, then the prefix-skip logic, then `parseCpioArchive`.  The inner
`Option` is `parseCpioArchive`'s fuel result (`none` = the entry loop
does not terminate). -/
def readCpioFromBuffer (buffer : List Nat) : Except String (Option (List CpioEntry)) :=
  if buffer.head? = some 0x1f ∧ buffer.tail.head? = some 0x8b then
    match gunzipSyncModel buffer with
    | Except.error e => Except.error e
    | Except.ok raw => readCpioRaw raw
  else readCpioRaw buffer

/-- `filterTextEntries`' per-entry test: non-empty declared size and only
tab/newline/carriage-return/printable-ASCII bytes in the first 512 bytes. -/
def isTextEntry (e : CpioEntry) : Bool :=
  if e.filesize = JNum.int 0 then false
  else (e.data.take 512).all fun b => b = 9 || b = 10 || b = 13 || (32 ≤ b && b ≤ 126)

/-- `filterTextEntries(entries)` (cpio-reader.ts). -/
def filterTextEntries (es : List CpioEntry) : List CpioEntry := es.filter isTextEntry

/-- A gzip stream whose payload is the trailer-only archive
`cpioTrailerChunk`, assembled with an FEXTRA field of 260 zero bytes and
a single stored deflate block; cross-checked against zlib.  The CRC-32 of
`cpioTrailerChunk` is `4002218411`. -/
def gzTrailerOnly : List Nat :=
  [31, 139, 8, 4, 0, 0, 0, 0, 0, 3] ++ [4, 1] ++ List.replicate 260 0 ++
    [1, 124, 0, 131, 255] ++ cpioTrailerChunk ++ [171, 1, 141, 238] ++ [124, 0, 0, 0]

example : crc32 cpioTrailerChunk = 4002218411 := by decide

example : gunzipSyncModel gzTrailerOnly = Except.ok cpioTrailerChunk := rfl

example : readCpioFromBuffer gzTrailerOnly = Except.ok (some []) := rfl

example : readCpioFromBuffer ([1, 2, 3, 4] ++ gzTrailerOnly) =
    Except.error "Not a valid CPIO archive: magic not found" := rfl

/-! ## Character-list utilities

The scene parser works on JavaScript strings; we model the handful of
string operations it uses (`trim`, `split`, `includes`, `startsWith`,
regex matching) directly on `List Char`, so that everything evaluates. -/

/-- ASCII whitespace as matched by JavaScript `\s`, `trim` and `split`. -/
def isWsChar (c : Char) : Bool :=
  c = ' ' || c = '\t' || c = '\n' || c = '\r' || c = '\x0b' || c = '\x0c'

/-- Trim whitespace from both ends. -/
def trimChars (cs : List Char) : List Char :=
  ((cs.dropWhile isWsChar).reverse.dropWhile isWsChar).reverse

/-- `String.prototype.trim`. -/
def jsTrim (s : String) : String := String.mk (trimChars s.data)

/-- Split on every character satisfying `p`, keeping empty groups
(`"a,,b".split(",") = ["a","","b"]`). -/
def splitPred (p : Char → Bool) : List Char → List (List Char)
  | [] => [[]]
  | c :: r =>
    match splitPred p r with
    | [] => [[]]
    | g :: gs => if p c then [] :: g :: gs else (c :: g) :: gs

/-- `content.split("\n")` as a list of strings. -/
def splitLines (s : String) : List String :=
  (splitPred (· = '\n') s.data).map String.mk

/-- `str.split(/\s+/)` on an already-trimmed string: maximal nonspace runs. -/
def splitWsToks (cs : List Char) : List (List Char) :=
  (splitPred isWsChar cs).filter (· ≠ [])

/-- Drop leading whitespace. -/
def dropSpaces (cs : List Char) : List Char := cs.dropWhile isWsChar

/-- Maximal nonspace run at the front. -/
def takeTok (cs : List Char) : List Char := cs.takeWhile (fun c => ¬ isWsChar c)

/-- `s.includes(pat)`. -/
def containsSubChars (cs pat : List Char) : Bool :=
  (List.range (cs.length + 1)).any fun i => pat.isPrefixOf (cs.drop i)

/-- `s.includes(pat)` on strings. -/
def containsSub (s pat : String) : Bool := containsSubChars s.data pat.data

/-- Leading decimal-digit run. -/
def takeDigits (cs : List Char) : List Char := cs.takeWhile Char.isDigit

/-- Value of a decimal-digit run. -/
def decDigitsVal (ds : List Char) : Nat := ds.foldl (fun a c => 10 * a + (c.toNat - 48)) 0

/-- The `{` character (written by code point). -/
def braceL : Char := Char.ofNat 123

/-- The `}` character (written by code point). -/
def braceR : Char := Char.ofNat 125

/-- The `'` character (written by code point). -/
def squote : Char := Char.ofNat 39

/-! ## Regex models for `hip-content-parser.ts`

Each definition documents the regular expression it implements.  The
greedy/backtracking behaviour of each pattern is deterministic on these
patterns (each `\S+`/`\d+`/`\w+` run is forced maximal); the deviations
that do arise from backtracking (`=?` in the `name` pattern) are modelled
explicitly. -/

/-- `/^type\s*=\s*(\S+)/` on a trimmed line. -/
def matchTypeLine (cs : List Char) : Option String :=
  if ['t', 'y', 'p', 'e'].isPrefixOf cs then
    match dropSpaces (cs.drop 4) with
    | '=' :: r2 =>
      let tok := takeTok (dropSpaces r2)
      if tok = [] then none else some (String.mk tok)
    | _ => none
  else none

/-- `/^name\s*=?\s*(\S+)/` on a trimmed line.  When nothing but
whitespace follows the `=`, the regex backtracks `=?` to empty and the
`\S+` captures the `=` itself. -/
def matchNameEqLine (cs : List Char) : Option String :=
  if ['n', 'a', 'm', 'e'].isPrefixOf cs then
    match dropSpaces (cs.drop 4) with
    | [] => none
    | '=' :: r2 =>
      let j := dropSpaces r2
      if j = [] then some "=" else some (String.mk (takeTok j))
    | c :: r => some (String.mk (takeTok (c :: r)))
  else none

/-- `/^\s*flags\s*=\s*(.+)/` on a trimmed line (the leading `\s*` is
vacuous after `trim`, and the remainder after `=` cannot be all-space). -/
def matchFlagsLine (cs : List Char) : Option String :=
  if ['f', 'l', 'a', 'g', 's'].isPrefixOf cs then
    match dropSpaces (cs.drop 5) with
    | '=' :: r2 =>
      let cap := dropSpaces r2
      if cap = [] then none else some (String.mk cap)
    | _ => none
  else none

/-- `/^name\s+(\S+)/` on a trimmed line (parm-stanza name). -/
def matchParmName (cs : List Char) : Option String :=
  if ['n', 'a', 'm', 'e'].isPrefixOf cs then
    match cs.drop 4 with
    | c :: r =>
      if isWsChar c then
        let tok := takeTok (dropSpaces r)
        if tok = [] then none else some (String.mk tok)
      else none
    | [] => none
  else none

/-- `value\s+(.+)` anchored at the front of `cs`. -/
def matchValueAfter (cs : List Char) : Option String :=
  if ['v', 'a', 'l', 'u', 'e'].isPrefixOf cs then
    match cs.drop 5 with
    | c :: r =>
      if isWsChar c then
        let cap := dropSpaces (c :: r)
        if cap = [] then none else some (String.mk cap)
      else none
    | [] => none
  else none

/-- `/^(?:default)?\s*value\s+(.+)/` on a trimmed line. -/
def matchParmValue (cs : List Char) : Option String :=
  match (if ['d', 'e', 'f', 'a', 'u', 'l', 't'].isPrefixOf cs
         then matchValueAfter (dropSpaces (cs.drop 7)) else none) with
  | some v => some v
  | none => matchValueAfter cs

/-- `/^expression\s+(.+)/` on a trimmed line. -/
def matchExprLine (cs : List Char) : Option String :=
  if ['e', 'x', 'p', 'r', 'e', 's', 's', 'i', 'o', 'n'].isPrefixOf cs then
    match cs.drop 10 with
    | c :: r =>
      if isWsChar c then
        let cap := dropSpaces (c :: r)
        if cap = [] then none else some (String.mk cap)
      else none
    | [] => none
  else none

/-- `/^wire\s+(\S+)\s+(\d+)\s+(\S+)\s+(\d+)/` on a trimmed line.  The
inner `(\d+)` must be an entire all-digit token (it is followed by `\s+`);
the final `(\d+)` is a nonempty digit prefix of the next token. -/
def matchWire (cs : List Char) : Option (String × Nat × String × Nat) :=
  if ['w', 'i', 'r', 'e'].isPrefixOf cs ∧ ((cs.drop 4).head?.elim false isWsChar) then
    let s1 := dropSpaces (cs.drop 4)
    let t1 := takeTok s1
    let r1 := s1.drop t1.length
    if t1 = [] ∨ r1 = [] then none
    else
      let s2 := dropSpaces r1
      let t2 := takeTok s2
      let r2 := s2.drop t2.length
      if t2 = [] ∨ ¬ t2.all Char.isDigit ∨ r2 = [] then none
      else
        let s3 := dropSpaces r2
        let t3 := takeTok s3
        let r3 := s3.drop t3.length
        if t3 = [] ∨ r3 = [] then none
        else
          let d := takeDigits (dropSpaces r3)
          if d = [] then none
          else some (String.mk t1, decDigitsVal t2, String.mk t3, decDigitsVal d)
  else none

/-- `/^input\s+(\d+)\s+(\S+)\s+(\d+)/` on a trimmed line, returning
`(toInput, fromNode, fromOutput)`. -/
def matchInputLine (cs : List Char) : Option (Nat × String × Nat) :=
  if ['i', 'n', 'p', 'u', 't'].isPrefixOf cs ∧ ((cs.drop 5).head?.elim false isWsChar) then
    let s1 := dropSpaces (cs.drop 5)
    let t1 := takeTok s1
    let r1 := s1.drop t1.length
    if t1 = [] ∨ ¬ t1.all Char.isDigit ∨ r1 = [] then none
    else
      let s2 := dropSpaces r1
      let t2 := takeTok s2
      let r2 := s2.drop t2.length
      if t2 = [] ∨ r2 = [] then none
      else
        let d := takeDigits (dropSpaces r2)
        if d = [] then none
        else some (decDigitsVal t1, String.mk t2, decDigitsVal d)
  else none

/-! ## JavaScript `Number(string)` model

`parseParamValue` relies on `Number(trimmed)`.  We model the ECMAScript
StringNumericLiteral grammar exactly (decimal with optional fraction and
exponent, `Infinity`, and unsigned `0x`/`0o`/`0b` literals), representing
finite values as exact rationals.  IEEE-754 rounding of the value is not
modelled; no claim depends on the rounded magnitude, only on NaN-ness and
on which coercion rule fires. -/

/-- An exact decimal value `mant · 10^exp10`, kept in the canonical form
with no trailing zero in `mant` (and `⟨0, 0⟩` for zero), so that
structural equality coincides with value equality. -/
structure DecNum where
  mant : Int
  exp10 : Int
deriving DecidableEq, Repr

/-- Strip factors of 10 from the mantissa. -/
def DecNum.normAux : Nat → Int → Int → DecNum
  | 0, m, e => ⟨m, e⟩
  | fuel + 1, m, e => if m % 10 = 0 then DecNum.normAux fuel (m / 10) (e + 1) else ⟨m, e⟩

/-- Canonical decimal from mantissa and exponent. -/
def DecNum.norm (m e : Int) : DecNum :=
  if m = 0 then ⟨0, 0⟩ else DecNum.normAux m.natAbs m e

/-- Negation (stays canonical). -/
def DecNum.neg (d : DecNum) : DecNum := DecNum.norm (-d.mant) d.exp10

inductive JsNumber where
  | fin : DecNum → JsNumber
  | inf : Bool → JsNumber
  | nan : JsNumber
deriving DecidableEq, Repr

/-- JavaScript `isNaN` on our number model. -/
def JsNumber.isNaN : JsNumber → Bool
  | JsNumber.nan => true
  | _ => false

/-- The finite JS number with integer value `n`. -/
def JsNumber.ofNat (n : Nat) : JsNumber := JsNumber.fin (DecNum.norm n 0)

/-- Exponent tail after `e`/`E`: optional sign then digits, consuming
everything. -/
def parseExpTail (cs : List Char) : Option Int :=
  let sr : Int × List Char :=
    match cs with
    | '+' :: r => (1, r)
    | '-' :: r => (-1, r)
    | _ => (1, cs)
  let ds := takeDigits sr.2
  if ds = [] ∨ sr.2.drop ds.length ≠ [] then none
  else some (sr.1 * (decDigitsVal ds : Int))

/-- Value of `ip "." fp` with an optional exponent in `rest` (which must
be consumed entirely): `digits(ip ++ fp) · 10^(e − |fp|)`. -/
def parseDecTail (ip fp : List Char) (rest : List Char) : Option DecNum :=
  let mant : Int := (decDigitsVal (ip ++ fp) : Int)
  match rest with
  | [] => some (DecNum.norm mant (-(fp.length : Int)))
  | 'e' :: r => (parseExpTail r).map fun e => DecNum.norm mant (e - (fp.length : Int))
  | 'E' :: r => (parseExpTail r).map fun e => DecNum.norm mant (e - (fp.length : Int))
  | _ => none

/-- StrUnsignedDecimalLiteral without `Infinity`: `digits [. digits?] [exp]`
or `. digits [exp]`, consuming the whole input. -/
def parseUnsignedDec (cs : List Char) : Option DecNum :=
  let ip := takeDigits cs
  if ip ≠ [] then
    match cs.drop ip.length with
    | '.' :: r2 =>
      let fp := takeDigits r2
      parseDecTail ip fp (r2.drop fp.length)
    | rest => parseDecTail ip [] rest
  else
    match cs with
    | '.' :: r2 =>
      let fp := takeDigits r2
      if fp = [] then none else parseDecTail [] fp (r2.drop fp.length)
    | _ => none

/-- Digit value in a non-decimal radix (16, 8 or 2). -/
def radixDigit (radix : Nat) (c : Char) : Option Nat :=
  if radix = 16 then
    if c.isDigit then some (c.toNat - 48)
    else if 'a' ≤ c ∧ c ≤ 'f' then some (c.toNat - 87)
    else if 'A' ≤ c ∧ c ≤ 'F' then some (c.toNat - 55)
    else none
  else if c.isDigit ∧ c.toNat - 48 < radix then some (c.toNat - 48)
  else none

/-- Nonempty all-valid digit run in the given radix, consuming everything. -/
def parseRadix (radix : Nat) (cs : List Char) : Option DecNum :=
  if cs = [] ∨ ¬ cs.all (fun c => (radixDigit radix c).isSome) then none
  else some (DecNum.norm ((cs.foldl (fun a c => radix * a + (radixDigit radix c).getD 0) 0 : Nat) : Int) 0)

/-- Signed decimal part of the grammar, including `Infinity`. -/
def parseSignedDec (cs : List Char) : JsNumber :=
  let sr : Bool × List Char :=
    match cs with
    | '+' :: r => (true, r)
    | '-' :: r => (false, r)
    | _ => (true, cs)
  if sr.2 = ['I', 'n', 'f', 'i', 'n', 'i', 't', 'y'] then JsNumber.inf sr.1
  else
    match parseUnsignedDec sr.2 with
    | some q => JsNumber.fin (if sr.1 then q else q.neg)
    | none => JsNumber.nan

/-- `Number(s)` on a character list (ECMAScript ToNumber for strings). -/
def jsNumberOfChars (cs0 : List Char) : JsNumber :=
  let cs := trimChars cs0
  if cs = [] then JsNumber.fin ⟨0, 0⟩
  else
    match cs with
    | '0' :: x :: r =>
      if x = 'x' ∨ x = 'X' then
        match parseRadix 16 r with
        | some q => JsNumber.fin q
        | none => JsNumber.nan
      else if x = 'o' ∨ x = 'O' then
        match parseRadix 8 r with
        | some q => JsNumber.fin q
        | none => JsNumber.nan
      else if x = 'b' ∨ x = 'B' then
        match parseRadix 2 r with
        | some q => JsNumber.fin q
        | none => JsNumber.nan
      else parseSignedDec cs
    | _ => parseSignedDec cs

/-- `Number(s)` on strings. -/
def jsNumberOfString (s : String) : JsNumber := jsNumberOfChars s.data

/-- A parameter value: single number, number sequence, or text
(`string | number | number[]` in hip-content-parser.ts). -/
inductive PValue where
  | num : JsNumber → PValue
  | nums : List JsNumber → PValue
  | str : String → PValue
deriving DecidableEq, Repr

/-- `parseParamValue(raw)` (hip-content-parser.ts): the raw string becomes
a single number when `Number(trimmed)` is not NaN and the trimmed string
is nonempty; else, when it contains a space, a number sequence if every
`/\s+/`-token converts; else the trimmed text. -/
def parseParamValue (raw : String) : PValue :=
  let trimmed := jsTrim raw
  let num := jsNumberOfString trimmed
  if ¬ num.isNaN ∧ trimmed ≠ "" then PValue.num num
  else if trimmed.data.contains ' ' then
    let parts := (splitWsToks trimmed.data).map String.mk
    let nums := parts.map jsNumberOfString
    if nums.all (fun n => ¬ n.isNaN) then PValue.nums nums else PValue.str trimmed
  else PValue.str trimmed

example : parseParamValue "3.14" = PValue.num (JsNumber.fin ⟨314, -2⟩) := by decide
example : parseParamValue "1 2 3" =
    PValue.nums [JsNumber.ofNat 1, JsNumber.ofNat 2, JsNumber.ofNat 3] := by decide
example : parseParamValue "hello world" = PValue.str "hello world" := by decide
example : parseParamValue "1e3" = PValue.num (JsNumber.fin ⟨1, 3⟩) := by decide
example : parseParamValue "1000" = PValue.num (JsNumber.fin ⟨1, 3⟩) := by decide
example : parseParamValue "0x10" = PValue.num (JsNumber.fin ⟨16, 0⟩) := by decide
example : parseParamValue "Infinity" = PValue.num (JsNumber.inf true) := by decide
example : parseParamValue "abc" = PValue.str "abc" := by decide

/-! ## Scene data model (hip-content-parser.ts) -/

/-- `HipParameter`: name, coerced value, default flag, optional expression
(the optional `channelRef` field is never assigned by the parser and is
omitted). -/
structure HipParameter where
  name : String
  value : PValue
  isDefault : Bool
  expression : Option String
deriving DecidableEq, Repr

/-- `HipNode`: full path, type, category, local name, parameters and
flags (`Record<string, boolean>` modelled as an insertion-ordered
association list). -/
structure HipNode where
  path : String
  type : String
  category : String
  name : String
  parameters : List HipParameter
  flags : List (String × Bool)
deriving DecidableEq, Repr

/-- `HipConnection` (fields `from`/`to` renamed: `from` is reserved). -/
structure HipConnection where
  fromNode : String
  fromOutput : Nat
  toNode : String
  toInput : Nat
deriving DecidableEq, Repr

/-- `HipParseResult`; `metadata` is an insertion-ordered association list. -/
structure HipParseResult where
  hipVersion : String
  saveTime : String
  nodes : List HipNode
  connections : List HipConnection
  metadata : List (String × String)
deriving DecidableEq, Repr

/-- A decoded text entry as consumed by the scene parser.  The TypeScript
`parseHipContent` receives `CpioEntry` values and decodes `entry.data`
with UTF-8; claims about the scene parser quantify over already-decoded
text entries. -/
structure TextEntry where
  filename : String
  content : String
deriving DecidableEq, Repr

/-- JavaScript-object assignment on an insertion-ordered association
list: update in place, or append a new key. -/
def recordSet {α : Type} (m : List (String × α)) (k : String) (v : α) : List (String × α) :=
  if m.any (fun kv => kv.1 = k) then
    m.map fun kv => if kv.1 = k then (k, v) else kv
  else m ++ [(k, v)]

/-- `normalizeFilename`: backslashes to slashes, strip one leading `.`
plus following slashes, strip trailing slashes. -/
def normalizeFilename (s : String) : String :=
  let cs := s.data.map fun c => if c = '\\' then '/' else c
  let cs := match cs with
    | '.' :: r => r.dropWhile (· = '/')
    | _ => cs
  String.mk (cs.reverse.dropWhile (· = '/')).reverse

/-- The base path of `extractNodesFromContent`/`extractConnections`:
`"/" + filename.replace(/\\/g, "/").replace(/^\/*/, "")`. -/
def basePathOf (filename : String) : String :=
  String.mk ('/' :: (filename.data.map fun c => if c = '\\' then '/' else c).dropWhile (· = '/'))

/-- `resolvePath(basePath, relative)`. -/
def resolvePath (basePath rel : String) : String :=
  if rel.data.head? = some '/' then rel else basePath ++ "/" ++ rel

/-- Lower-case a string (`toLowerCase` on the ASCII range used here). -/
def toLowerStr (s : String) : String := String.mk (s.data.map Char.toLower)

/-- `inferCategory(nodeType, filePath)` (hip-content-parser.ts). -/
def inferCategory (nodeType filePath : String) : String :=
  let typeLower := toLowerStr nodeType
  let pathLower := toLowerStr filePath
  if containsSub typeLower "pyro" || containsSub typeLower "flip" ||
      containsSub typeLower "rbd" || containsSub typeLower "vellum" ||
      containsSub typeLower "solver" || containsSub typeLower "gas" ||
      containsSub typeLower "bullet" then "DOP"
  else if containsSub pathLower "/dop/" || containsSub pathLower "dopnet" then "DOP"
  else if containsSub pathLower "/sop/" || containsSub pathLower "sopnet" then "SOP"
  else if containsSub pathLower "/vop/" || containsSub pathLower "vopnet" then "VOP"
  else if containsSub pathLower "/chop/" || containsSub pathLower "chopnet" then "CHOP"
  else if containsSub pathLower "/cop/" || containsSub pathLower "copnet" then "COP"
  else if containsSub pathLower "/rop/" || containsSub pathLower "ropnet" then "ROP"
  else if containsSub pathLower "/lop/" || containsSub pathLower "lopnet" then "LOP"
  else if containsSub pathLower "/top/" || containsSub pathLower "topnet" then "TOP"
  else if containsSub pathLower "/obj/" then "OBJ"
  else "SOP"

/-- `parseFlags(flagStr, node)`: whitespace-separated tokens; `k=v` sets
flag `k` to `v ∈ {1, on, true}`; a bare token sets the flag to true. -/
def parseFlags (flagStr : String) (flags : List (String × Bool)) : List (String × Bool) :=
  (splitWsToks (trimChars flagStr.data)).foldl
    (fun m part =>
      match splitPred (· = '=') part with
      | [k, v] => recordSet m (String.mk k)
          (v = ['1'] || v = ['o', 'n'] || v = ['t', 'r', 'u', 'e'])
      | _ => recordSet m (String.mk part) true)
    flags

/-- `finalizeNode(partial, basePath)`: in `extractNodesFromContent` the
in-progress record is always created with every field populated (type,
empty name, base path, category, empty parameters and flags), so each
`??` fallback in the source is inert and the function is the identity. -/
def finalizeNode (part : HipNode) (basePath : String) : HipNode := part

/-- The mutable locals of `extractNodesFromContent`'s line loop. -/
structure ParseNodesState where
  nodes : List HipNode
  currentNode : Option HipNode
  inParm : Bool
  parmDepth : Int
  parmName : String
  parmValue : String
  parmExpr : String
  parmIsDefault : Bool
deriving DecidableEq, Repr

/-- Initial state of the line loop. -/
def initParseNodesState : ParseNodesState := ⟨[], none, false, 0, "", "", "", true⟩

/-- Flush the in-progress node (`if (currentNode?.type) push(finalizeNode(...))`). -/
def flushCurrent (st : ParseNodesState) (basePath : String) : List HipNode :=
  match st.currentNode with
  | some n => if n.type ≠ "" then st.nodes ++ [finalizeNode n basePath] else st.nodes
  | none => st.nodes

/-- The in-parm part of `extractNodesFromContent`'s loop: update the
brace depth over the whole trimmed line; when it reaches 0 or below,
save the pending parameter (if named) onto the current node and leave
the block; otherwise consume `name`, `[default ]value`,
`parmdef`/`default {` markers and `expression` lines. -/
def plInParm (st : ParseNodesState) (trimmed : List Char) : ParseNodesState :=
  let d := st.parmDepth + (trimmed.count braceL : Int) - (trimmed.count braceR : Int)
  if d ≤ 0 then
    let withParam :=
      if st.parmName ≠ "" ∧ st.currentNode.isSome then
        match st.currentNode with
        | some n =>
          let param : HipParameter :=
            { name := st.parmName, value := parseParamValue st.parmValue,
              isDefault := st.parmIsDefault,
              expression := if st.parmExpr ≠ "" then some st.parmExpr else none }
          { st with currentNode := some { n with parameters := n.parameters ++ [param] } }
        | none => st
      else st
    { withParam with inParm := false, parmDepth := d }
  else
    let stD := { st with parmDepth := d }
    if (matchParmName trimmed).isSome then
      { stD with parmName := (matchParmName trimmed).getD "" }
    else if (matchParmValue trimmed).isSome then
      { stD with parmValue := jsTrim ((matchParmValue trimmed).getD "") }
    else
      let stP :=
        if containsSubChars trimmed ['p', 'a', 'r', 'm', 'd', 'e', 'f'] ∨
            containsSubChars trimmed ['d', 'e', 'f', 'a', 'u', 'l', 't', ' ', braceL] then
          { stD with parmIsDefault := false }
        else stD
      match matchExprLine trimmed with
      | some e => { stP with parmExpr := jsTrim e, parmIsDefault := false }
      | none => stP

/-- One iteration of `extractNodesFromContent`'s loop over lines, in the
source's guard order: type line (when not in a parm block), name line,
flags line (tested even inside a parm block), `parm {` opener (also
tested inside a parm block), then the in-parm machine `plInParm`. -/
def processLine (filename basePath : String) (st : ParseNodesState)
    (line : String) : ParseNodesState :=
  let trimmed := trimChars line.data
  if (matchTypeLine trimmed).isSome ∧ ¬ st.inParm then
    let ty := (matchTypeLine trimmed).getD ""
    { st with
      nodes := flushCurrent st basePath,
      currentNode := some
        { type := ty, parameters := [], flags := [], name := "", path := basePath,
          category := inferCategory ty filename } }
  else if (matchNameEqLine trimmed).isSome ∧ st.currentNode.isSome ∧ ¬ st.inParm then
    match st.currentNode with
    | some n =>
      let nm := (matchNameEqLine trimmed).getD ""
      { st with currentNode := some { n with name := nm, path := basePath ++ "/" ++ nm } }
    | none => st
  else if (matchFlagsLine trimmed).isSome ∧ st.currentNode.isSome then
    match st.currentNode with
    | some n =>
      let fl := parseFlags ((matchFlagsLine trimmed).getD "") n.flags
      { st with currentNode := some { n with flags := fl } }
    | none => st
  else if trimmed = ['p', 'a', 'r', 'm', ' ', braceL] ∨
      ['p', 'a', 'r', 'm', '\t', braceL].isPrefixOf trimmed then
    { st with
      inParm := true, parmDepth := 1, parmName := "", parmValue := "",
      parmExpr := "", parmIsDefault := true }
  else if st.inParm then plInParm st trimmed
  else st

/-- `extractNodesFromContent(filename, content)`. -/
def extractNodesFromContent (filename content : String) : List HipNode :=
  let basePath := basePathOf filename
  let final := (splitLines content).foldl (processLine filename basePath) initParseNodesState
  flushCurrent final basePath

/-- The connection produced by one line of `extractConnections`. -/
def connOfLine (basePath : String) (line : String) : Option HipConnection :=
  let trimmed := trimChars line.data
  match matchWire trimmed with
  | some (f, fo, t, ti) =>
    some ⟨resolvePath basePath f, fo, resolvePath basePath t, ti⟩
  | none =>
    match matchInputLine trimmed with
    | some (ti, f, fo) => some ⟨resolvePath basePath f, fo, basePath, ti⟩
    | none => none

/-- `extractConnections(filename, content)`. -/
def extractConnections (filename content : String) : List HipConnection :=
  let basePath := basePathOf filename
  (splitLines content).filterMap (connOfLine basePath)

/-! ## Header metadata and `parseHipContent` -/

/-- `RE_VERSION` at one position:
`(houdini_version|_HIP_SAVEVERSION)\s*=?\s*["']?(\d+\.\d+(\.\d+)?)`. -/
def matchVersionAt (cs : List Char) : Option (List Char) :=
  let afterKw : Option (List Char) :=
    if "houdini_version".data.isPrefixOf cs then some (cs.drop 15)
    else if "_HIP_SAVEVERSION".data.isPrefixOf cs then some (cs.drop 16)
    else none
  match afterKw with
  | none => none
  | some r =>
    let r1 := dropSpaces r
    let r2 := match r1 with
      | '=' :: t => dropSpaces t
      | _ => r1
    let r3 := match r2 with
      | q :: t => if q = '"' ∨ q = squote then t else r2
      | [] => r2
    let d1 := takeDigits r3
    if d1 = [] then none
    else
      match r3.drop d1.length with
      | '.' :: r4 =>
        let d2 := takeDigits r4
        if d2 = [] then none
        else
          match r4.drop d2.length with
          | '.' :: r5 =>
            let d3 := takeDigits r5
            if d3 = [] then some (d1 ++ '.' :: d2)
            else some (d1 ++ '.' :: d2 ++ '.' :: d3)
          | _ => some (d1 ++ '.' :: d2)
      | _ => none

/-- First (leftmost) match of `RE_VERSION` in a string; `""` when none. -/
def findVersionCapture (s : String) : String :=
  match (List.range (s.data.length + 1)).findSome?
      (fun i => matchVersionAt (s.data.drop i)) with
  | some cap => String.mk cap
  | none => ""

/-- `RE_SAVE_TIME` at one position:
`(_HIP_SAVETIME|hip_savetime)\s*=?\s*["']?([^"'\n]+)`. -/
def matchSaveTimeAt (cs : List Char) : Option (List Char) :=
  let afterKw : Option (List Char) :=
    if "_HIP_SAVETIME".data.isPrefixOf cs then some (cs.drop 13)
    else if "hip_savetime".data.isPrefixOf cs then some (cs.drop 12)
    else none
  match afterKw with
  | none => none
  | some r =>
    let r1 := dropSpaces r
    let r2 := match r1 with
      | '=' :: t => dropSpaces t
      | _ => r1
    let r3 := match r2 with
      | q :: t => if q = '"' ∨ q = squote then t else r2
      | [] => r2
    let cap := r3.takeWhile fun c => ¬ (c = '"' ∨ c = squote ∨ c = '\n')
    if cap = [] then none else some cap

/-- First match of `RE_SAVE_TIME`; `""` when none. -/
def findSaveTimeCapture (s : String) : String :=
  match (List.range (s.data.length + 1)).findSome?
      (fun i => matchSaveTimeAt (s.data.drop i)) with
  | some cap => String.mk cap
  | none => ""

/-- JavaScript `\w`. -/
def isWordChar (c : Char) : Bool := c.isAlphanum || c = '_'

/-- The metadata pattern `/(\w+)\s*=\s*["']?([^"'\n]+)["']?/` at one
position, returning key, raw value capture, and the number of characters
the whole match consumes. -/
def matchVarAt (cs : List Char) : Option (List Char × List Char × Nat) :=
  let w := cs.takeWhile isWordChar
  if w = [] then none
  else
    let afterW := cs.drop w.length
    let r1 := dropSpaces afterW
    match r1 with
    | '=' :: t =>
      let r2 := dropSpaces t
      let hadQuote : Bool := match r2 with
        | q :: _ => q = '"' ∨ q = squote
        | [] => false
      let r3 := if hadQuote then r2.tail else r2
      let cap := r3.takeWhile fun c => ¬ (c = '"' ∨ c = squote ∨ c = '\n')
      if cap = [] then none
      else
        let afterCap := r3.drop cap.length
        let tq : Nat := match afterCap with
          | q :: _ => if q = '"' ∨ q = squote then 1 else 0
          | [] => 0
        some (w, cap, cs.length - afterCap.length + tq)
    | _ => none

/-- The global `varPattern` loop of `parseHeader`: repeatedly find the
next match and assign `metadata[key] = value.trim()` (last write wins). -/
def scanVars (fuel : Nat) (cs : List Char) (acc : List (String × String)) :
    List (String × String) :=
  match fuel with
  | 0 => acc
  | fuel + 1 =>
    match (List.range (cs.length + 1)).findSome?
        (fun i => (matchVarAt (cs.drop i)).map fun m => (i, m)) with
    | none => acc
    | some (i, k, v, used) =>
      scanVars fuel (cs.drop (i + used))
        (recordSet acc (String.mk k) (jsTrim (String.mk v)))

/-- Header-file detection in `parseHipContent` (note: it tests the
normalized filename, in which a leading dot has been stripped, so the
`".hip"` and `".OPfallbacks"` comparisons never fire in practice). -/
def isHeaderName (filename : String) : Bool :=
  filename = ".hip" || filename = "Houdini" || filename = ".OPfallbacks" ||
    ".def".data.isSuffixOf filename.data || filename = "houdini.hip"

/-- `parseHipContent(entries)` (hip-content-parser.ts): split entries into
header content and node entries (a `Map` keyed by normalized filename),
extract header metadata, fall back to scanning all entries for a version,
then extract nodes and connections from each node entry whose content
contains the substring `"type"`. -/
def parseHipContent (entries : List TextEntry) : HipParseResult :=
  let split := entries.foldl
    (fun (acc : List (String × String) × String) e =>
      let filename := normalizeFilename e.filename
      if isHeaderName filename then (acc.1, acc.2 ++ "\n" ++ e.content)
      else (recordSet acc.1 filename e.content, acc.2))
    ([], "")
  let headerContent := split.2
  let hipVersion0 := if headerContent = "" then "" else findVersionCapture headerContent
  let saveTime := if headerContent = "" then "" else jsTrim (findSaveTimeCapture headerContent)
  let metadata := if headerContent = "" then []
    else scanVars (headerContent.data.length + 1) headerContent.data []
  let hipVersion :=
    if hipVersion0 = "" then
      match entries.findSome? (fun e =>
          let c := findVersionCapture e.content
          if c = "" then none else some c) with
      | some v => v
      | none => ""
    else hipVersion0
  let nodesConns := split.1.foldl
    (fun (acc : List HipNode × List HipConnection) kv =>
      if containsSub kv.2 "type" then
        (acc.1 ++ extractNodesFromContent kv.1 kv.2, acc.2 ++ extractConnections kv.1 kv.2)
      else acc)
    ([], [])
  { hipVersion := hipVersion, saveTime := saveTime, nodes := nodesConns.1,
    connections := nodesConns.2, metadata := metadata }

example :
    (parseHipContent [⟨"obj/geo1/pyro_solver1",
      "type = pyrosolver::2.0\nname = pyro_solver1\nparm \x7b\n  name dissipation\n  value 0.05\n\x7d\nparm \x7b\n  name cooling_rate\n  value 0.3\n  parmdef\n\x7d\n"⟩]).nodes =
    [{ path := "/obj/geo1/pyro_solver1/pyro_solver1", type := "pyrosolver::2.0",
       category := "DOP", name := "pyro_solver1",
       parameters := [
         { name := "dissipation", value := PValue.num (JsNumber.fin ⟨5, -2⟩),
           isDefault := true, expression := none },
         { name := "cooling_rate", value := PValue.num (JsNumber.fin ⟨3, -1⟩),
           isDefault := false, expression := none }],
       flags := [] }] := by decide

example :
    (parseHipContent [⟨"obj/geo1/merge",
      "type = merge\nname = merge1\nwire /obj/geo1/a 0 /obj/geo1/merge1 1\n"⟩]).connections =
    [{ fromNode := "/obj/geo1/a", fromOutput := 0,
       toNode := "/obj/geo1/merge1", toInput := 1 }] := by decide

/-! ## Scene invariants (C2) -/

/-- The closed set of node categories. -/
def categorySet : List String :=
  ["OBJ", "SOP", "DOP", "VOP", "CHOP", "COP", "ROP", "LOP", "TOP"]

/-- A string that starts with `/`. -/
def startsSlash (s : String) : Prop := s.data.head? = some '/'

/-- The per-parameter part of the invariant. -/
def goodParam (p : HipParameter) : Prop :=
  p.name ≠ "" ∧ (p.expression.isSome → p.isDefault = false)

/-- The per-node part of the invariant. -/
def goodNode (n : HipNode) : Prop :=
  startsSlash n.path ∧ n.category ∈ categorySet ∧ ∀ p ∈ n.parameters, goodParam p

/-- The loop-state invariant: finished and in-progress nodes are good, and
a pending expression forces the pending default flag off. -/
def InvSt (st : ParseNodesState) : Prop :=
  (∀ n ∈ st.nodes, goodNode n) ∧
    (∀ n, st.currentNode = some n → goodNode n) ∧
    (st.parmExpr ≠ "" → st.parmIsDefault = false)

set_option maxHeartbeats 1000000 in
lemma inferCategory_mem (t f : String) : inferCategory t f ∈ categorySet := by
  unfold inferCategory
  dsimp only
  split_ifs <;> decide

lemma startsSlash_append (s t : String) (h : startsSlash s) : startsSlash (s ++ t) := by
  unfold startsSlash at h ⊢
  rcases s with ⟨cs⟩
  cases cs with
  | nil => simp at h
  | cons c r =>
    simp only [List.head?_cons, Option.some.injEq] at h
    show ((String.mk (c :: r)) ++ t).data.head? = some '/'
    rw [show ((String.mk (c :: r)) ++ t).data = c :: (r ++ t.data) from rfl]
    simp [h]

lemma startsSlash_basePathOf (filename : String) : startsSlash (basePathOf filename) := rfl

lemma flushCurrent_good (st : ParseNodesState) (basePath : String)
    (h1 : ∀ n ∈ st.nodes, goodNode n) (h2 : ∀ n, st.currentNode = some n → goodNode n) :
    ∀ n ∈ flushCurrent st basePath, goodNode n := by
  intro n hn
  unfold flushCurrent at hn
  split at hn
  next m heq =>
    split at hn
    next ht =>
      rcases List.mem_append.mp hn with hn | hn
      · exact h1 n hn
      · simp only [List.mem_singleton, finalizeNode] at hn
        subst hn
        exact h2 _ heq
    next ht => exact h1 n hn
  next heq => exact h1 n hn

lemma plInParm_inv (st : ParseNodesState) (trimmed : List Char) (h : InvSt st) :
    InvSt (plInParm st trimmed) := by
  obtain ⟨hns, hcur, hexp⟩ := h
  unfold plInParm
  dsimp only
  by_cases hd : st.parmDepth + ((trimmed.count braceL : Nat) : Int)
      - ((trimmed.count braceR : Nat) : Int) ≤ 0
  · rw [if_pos hd]
    by_cases hnm : st.parmName ≠ "" ∧ st.currentNode.isSome = true
    · rw [if_pos hnm]
      cases hc : st.currentNode with
      | none => exact ⟨hns, hcur, hexp⟩
      | some m =>
        refine ⟨hns, ?_, hexp⟩
        intro n hn
        simp only [Option.some.injEq] at hn
        subst hn
        obtain ⟨hp, hcat, hpr⟩ := hcur m hc
        refine ⟨hp, hcat, ?_⟩
        intro p hp2
        rcases List.mem_append.mp hp2 with hp2 | hp2
        · exact hpr p hp2
        · simp only [List.mem_singleton] at hp2
          subst hp2
          refine ⟨hnm.1, ?_⟩
          intro hsome
          by_cases he : st.parmExpr = ""
          · simp [he] at hsome
          · exact hexp he
    · rw [if_neg hnm]
      exact ⟨hns, hcur, hexp⟩
  · rw [if_neg hd]
    by_cases hn1 : (matchParmName trimmed).isSome = true
    · rw [if_pos hn1]
      exact ⟨hns, hcur, hexp⟩
    · rw [if_neg hn1]
      by_cases hv1 : (matchParmValue trimmed).isSome = true
      · rw [if_pos hv1]
        exact ⟨hns, hcur, hexp⟩
      · rw [if_neg hv1]
        by_cases hpd : containsSubChars trimmed
              ['p', 'a', 'r', 'm', 'd', 'e', 'f'] = true ∨
            containsSubChars trimmed
              ['d', 'e', 'f', 'a', 'u', 'l', 't', ' ', braceL] = true
        · rw [if_pos hpd]
          cases hme : matchExprLine trimmed with
          | none => exact ⟨hns, hcur, fun _ => rfl⟩
          | some e => exact ⟨hns, hcur, fun _ => rfl⟩
        · rw [if_neg hpd]
          cases hme : matchExprLine trimmed with
          | none => exact ⟨hns, hcur, hexp⟩
          | some e => exact ⟨hns, hcur, fun _ => rfl⟩

lemma processLine_inv (filename basePath line : String) (hbp : startsSlash basePath)
    (st : ParseNodesState) (h : InvSt st) :
    InvSt (processLine filename basePath st line) := by
  obtain ⟨hns, hcur, hexp⟩ := h
  unfold processLine
  dsimp only
  split_ifs with h1 h2 h3 h4 h5
  · -- type line: flush and start a fresh node
    refine ⟨flushCurrent_good st basePath hns hcur, ?_, hexp⟩
    intro n hn
    simp only [Option.some.injEq] at hn
    subst hn
    exact ⟨hbp, inferCategory_mem _ _, by simp⟩
  · -- name line: rename the current node
    cases hc : st.currentNode with
    | none => exact ⟨hns, hcur, hexp⟩
    | some m =>
      refine ⟨hns, ?_, hexp⟩
      intro n hn
      simp only [Option.some.injEq] at hn
      subst hn
      obtain ⟨hp, hcat, hpr⟩ := hcur m hc
      exact ⟨startsSlash_append _ _ (startsSlash_append _ _ hbp), hcat, hpr⟩
  · -- flags line
    cases hc : st.currentNode with
    | none => exact ⟨hns, hcur, hexp⟩
    | some m =>
      refine ⟨hns, ?_, hexp⟩
      intro n hn
      simp only [Option.some.injEq] at hn
      subst hn
      obtain ⟨hp, hcat, hpr⟩ := hcur m hc
      exact ⟨hp, hcat, hpr⟩
  · -- `parm {` opener
    exact ⟨hns, hcur, by simp⟩
  · -- inside a parm block
    exact plInParm_inv st _ ⟨hns, hcur, hexp⟩
  · exact ⟨hns, hcur, hexp⟩

lemma foldl_processLine_inv (filename basePath : String) (hbp : startsSlash basePath)
    (lines : List String) (st : ParseNodesState) (h : InvSt st) :
    InvSt (lines.foldl (processLine filename basePath) st) := by
  induction lines generalizing st with
  | nil => exact h
  | cons l ls ih =>
    exact ih _ (processLine_inv filename basePath l hbp st h)

lemma extractNodesFromContent_good (filename content : String) :
    ∀ n ∈ extractNodesFromContent filename content, goodNode n := by
  unfold extractNodesFromContent
  have h := foldl_processLine_inv filename (basePathOf filename)
    (startsSlash_basePathOf filename) (splitLines content) initParseNodesState
    ⟨by simp [initParseNodesState], by simp [initParseNodesState], by simp [initParseNodesState]⟩
  exact flushCurrent_good _ _ h.1 h.2.1

lemma parseNodes_fold_good (kvs : List (String × String))
    (acc : List HipNode × List HipConnection) (hacc : ∀ n ∈ acc.1, goodNode n) :
    ∀ n ∈ (kvs.foldl
      (fun (acc : List HipNode × List HipConnection) kv =>
        if containsSub kv.2 "type" then
          (acc.1 ++ extractNodesFromContent kv.1 kv.2, acc.2 ++ extractConnections kv.1 kv.2)
        else acc)
      acc).1, goodNode n := by
  induction kvs generalizing acc with
  | nil => exact hacc
  | cons kv kvs ih =>
    simp only [List.foldl_cons]
    apply ih
    by_cases hc : containsSub kv.2 "type"
    · rw [if_pos hc]
      intro n hn
      rcases List.mem_append.mp hn with hn | hn
      · exact hacc n hn
      · exact extractNodesFromContent_good kv.1 kv.2 n hn
    · rw [if_neg hc]
      exact hacc

/-- C2: in every Scene produced by `parseHipContent`, every node's path
starts with `/`, every category is in the closed set
OBJ/SOP/DOP/VOP/CHOP/COP/ROP/LOP/TOP, every parameter appended to a node
has a non-empty name, and every parameter carrying an expression has
`is_default = false`. -/
theorem claim2_scene_invariants (entries : List TextEntry) (n : HipNode)
    (hn : n ∈ (parseHipContent entries).nodes) :
    n.path.data.head? = some '/' ∧ n.category ∈ categorySet ∧
      ∀ p ∈ n.parameters, p.name ≠ "" ∧ (p.expression.isSome → p.isDefault = false) := by
  have hg : goodNode n := by
    unfold parseHipContent at hn
    simp only at hn
    exact parseNodes_fold_good _ _ (by simp) n hn
  exact ⟨hg.1, hg.2.1, hg.2.2⟩

/-- The entry list used to witness C2. -/
def claim2Entries : List TextEntry :=
  [⟨"obj/geo1/pyro_solver1",
    "type = pyrosolver::2.0\nname = pyro_solver1\nparm \x7b\n  name dissipation\n  expression sin(1)\n\x7d\n"⟩]

/-- The node the parser produces from `claim2Entries`. -/
def claim2Node : HipNode :=
  { path := "/obj/geo1/pyro_solver1/pyro_solver1", type := "pyrosolver::2.0",
    category := "DOP", name := "pyro_solver1",
    parameters := [{ name := "dissipation", value := PValue.str "",
                     isDefault := false, expression := some "sin(1)" }],
    flags := [] }

/-- Witness for C2 on a one-parameter expression-driven pyro-solver scene. -/
theorem claim2_scene_invariants_spot :
    claim2Node ∈ (parseHipContent claim2Entries).nodes ∧
      (claim2Node.path.data.head? = some '/' ∧ claim2Node.category ∈ categorySet ∧
        ∀ p ∈ claim2Node.parameters,
          p.name ≠ "" ∧ (p.expression.isSome → p.isDefault = false)) :=
  ⟨by decide, claim2_scene_invariants claim2Entries claim2Node (by decide)⟩

/-! ## Value coercion (C4) -/

/-- C4 counterexample: the first coercion rule performs no canonical-form
or finiteness check.  `Number("Infinity")` is non-NaN, so `"Infinity"`
coerces to a non-finite float; `"1e3"` (canonical form `"1000"`) coerces
to 1000; the hex literal `"0x10"` coerces to 16 — all contradicting the
claim that a single float is produced only when the input is the
canonical spelling of a finite float. -/
theorem claim4_coercion_counterexample :
    parseParamValue "Infinity" = PValue.num (JsNumber.inf true) ∧
      parseParamValue "1e3" = PValue.num (JsNumber.fin ⟨1, 3⟩) ∧
      parseParamValue "0x10" = PValue.num (JsNumber.fin ⟨16, 0⟩) := by
  refine ⟨?_, ?_, ?_⟩ <;> decide

/-- C4 amended: value coercion produces a single float exactly when the
trimmed string is non-empty and `Number(trimmed)` is not NaN under the
full JavaScript grammar (including hex/octal/binary literals,
non-canonical spellings such as `1e3`, and the non-finite `Infinity`);
the produced value is `Number(trimmed)`. -/
theorem claim4_coercion_amended (raw : String) :
    ((∃ v, parseParamValue raw = PValue.num v) ↔
      ((jsNumberOfString (jsTrim raw)).isNaN = false ∧ jsTrim raw ≠ "")) ∧
      ∀ v, parseParamValue raw = PValue.num v → v = jsNumberOfString (jsTrim raw) := by
  unfold parseParamValue
  dsimp only
  by_cases h : ¬ (jsNumberOfString (jsTrim raw)).isNaN = true ∧ jsTrim raw ≠ ""
  · rw [if_pos h]
    refine ⟨⟨fun _ => ⟨by simpa using h.1, h.2⟩, fun _ => ⟨_, rfl⟩⟩, ?_⟩
    intro v hv
    cases hv
    rfl
  · rw [if_neg h]
    have hno : ∀ v, (if (jsTrim raw).data.contains ' ' = true then
        if (((splitWsToks (jsTrim raw).data).map String.mk).map jsNumberOfString).all
            (fun n => ¬ n.isNaN = true) = true then
          PValue.nums (((splitWsToks (jsTrim raw).data).map String.mk).map jsNumberOfString)
        else PValue.str (jsTrim raw)
      else PValue.str (jsTrim raw)) ≠ PValue.num v := by
      intro v
      split_ifs <;> simp
    constructor
    · constructor
      · rintro ⟨v, hv⟩
        exact absurd hv (hno v)
      · intro hr
        exact absurd ⟨by simp [hr.1], hr.2⟩ h
    · intro v hv
      exact absurd hv (hno v)

/-- Witness for C4's amended statement at `"1e3"`. -/
theorem claim4_coercion_amended_spot :
    (jsNumberOfString (jsTrim "1e3")).isNaN = false ∧ jsTrim "1e3" ≠ "" ∧
      parseParamValue "1e3" = PValue.num (jsNumberOfString (jsTrim "1e3")) := by
  refine ⟨by decide, by decide, ?_⟩
  obtain ⟨v, hv⟩ := (claim4_coercion_amended "1e3").1.mpr ⟨by decide, by decide⟩
  rw [hv, (claim4_coercion_amended "1e3").2 v hv]

/-! ## `parseHipBuffer` (hip-parser/index.ts) -/

/-- The replacement character. -/
def replChar : Char := Char.ofNat 0xFFFD

/-- UTF-8 decoding with U+FFFD for invalid sequences (the behaviour of
`Buffer.prototype.toString("utf-8")`); exact on well-formed input, which
is all the theorems below feed it. -/
def decodeUtf8 : List Nat → List Char
  | [] => []
  | b :: rest =>
    if h1 : b < 0x80 then Char.ofNat b :: decodeUtf8 rest
    else if 0xC2 ≤ b ∧ b ≤ 0xDF then
      match rest with
      | b2 :: r2 =>
        if 0x80 ≤ b2 ∧ b2 ≤ 0xBF then
          Char.ofNat ((b - 0xC0) * 64 + (b2 - 0x80)) :: decodeUtf8 r2
        else replChar :: decodeUtf8 (b2 :: r2)
      | [] => [replChar]
    else if 0xE0 ≤ b ∧ b ≤ 0xEF then
      match rest with
      | b2 :: b3 :: r3 =>
        if (if b = 0xE0 then 0xA0 ≤ b2 ∧ b2 ≤ 0xBF
            else if b = 0xED then 0x80 ≤ b2 ∧ b2 ≤ 0x9F
            else 0x80 ≤ b2 ∧ b2 ≤ 0xBF) ∧ 0x80 ≤ b3 ∧ b3 ≤ 0xBF then
          Char.ofNat ((b - 0xE0) * 4096 + (b2 - 0x80) * 64 + (b3 - 0x80)) :: decodeUtf8 r3
        else replChar :: decodeUtf8 (b2 :: b3 :: r3)
      | [b2] => replChar :: decodeUtf8 [b2]
      | [] => [replChar]
    else if 0xF0 ≤ b ∧ b ≤ 0xF4 then
      match rest with
      | b2 :: b3 :: b4 :: r4 =>
        if (if b = 0xF0 then 0x90 ≤ b2 ∧ b2 ≤ 0xBF
            else if b = 0xF4 then 0x80 ≤ b2 ∧ b2 ≤ 0x8F
            else 0x80 ≤ b2 ∧ b2 ≤ 0xBF) ∧ 0x80 ≤ b3 ∧ b3 ≤ 0xBF ∧
            0x80 ≤ b4 ∧ b4 ≤ 0xBF then
          Char.ofNat ((b - 0xF0) * 262144 + (b2 - 0x80) * 4096 + (b3 - 0x80) * 64 + (b4 - 0x80))
            :: decodeUtf8 r4
        else replChar :: decodeUtf8 (b2 :: b3 :: b4 :: r4)
      | [b2, b3] => replChar :: decodeUtf8 [b2, b3]
      | [b2] => replChar :: decodeUtf8 [b2]
      | [] => [replChar]
    else replChar :: decodeUtf8 rest
termination_by l => l.length
decreasing_by all_goals simp only [List.length_cons] <;> omega

/-- The decoded text entry handed to the scene parser. -/
def toTextEntry (e : CpioEntry) : TextEntry :=
  ⟨String.mk (decodeUtf8 e.filename), String.mk (decodeUtf8 e.data)⟩

/-- `parseHipBuffer(buffer)` (hip-parser/index.ts): CPIO read, text
filter, scene parse.  The inner `Option` is the reader's fuel result. -/
def parseHipBuffer (buffer : List Nat) : Except String (Option HipParseResult) :=
  match readCpioFromBuffer buffer with
  | Except.error e => Except.error e
  | Except.ok none => Except.ok none
  | Except.ok (some entries) =>
    Except.ok (some (parseHipContent ((filterTextEntries entries).map toTextEntry)))

lemma jsSubarray_shift4 (junk raw : List Nat) (h : junk.length = 4) :
    jsSubarray (junk ++ raw) (JNum.int 4) (JNum.int 10) =
      jsSubarray raw (JNum.int 0) (JNum.int 6) := by
  simp only [jsSubarray, jsSubIdx]
  rw [if_neg (by decide : ¬ (4 : Int) < 0), if_neg (by decide : ¬ (10 : Int) < 0),
    if_neg (by decide : ¬ (0 : Int) < 0), if_neg (by decide : ¬ (6 : Int) < 0)]
  rw [show ((4 : Int)).toNat = 4 from rfl, show ((10 : Int)).toNat = 10 from rfl,
    show ((0 : Int)).toNat = 0 from rfl, show ((6 : Int)).toNat = 6 from rfl]
  simp only [List.length_append, h]
  rw [show min 4 (4 + raw.length) = 4 from by omega,
    show min 10 (4 + raw.length) = 4 + min 6 raw.length from by omega,
    show min 0 raw.length = 0 from by omega,
    Nat.add_sub_cancel_left, List.drop_zero, Nat.sub_zero]
  rw [← h, List.drop_left]

/-- C3 (counterexample): the junk-prefix skip runs on the decompressed
bytes, not on the compressed stream.  The gzip stream `gzTrailerOnly`
(a trailer-only archive) parses to a scene with zero nodes and zero
connections, but prepending the 4 junk bytes `[0x01,0x02,0x03,0x04]`
makes the reader throw instead of returning the same entries: the
prefixed buffer no longer starts with `1f 8b`, gunzip is skipped, and no
CPIO magic occurs in the compressed bytes' first 256 positions. -/
theorem claim3_prefix_gzip_counterexample :
    parseHipBuffer gzTrailerOnly =
        Except.ok (some { hipVersion := "", saveTime := "", nodes := [],
                          connections := [], metadata := [] }) ∧
      parseHipBuffer ([1, 2, 3, 4] ++ gzTrailerOnly) =
        Except.error "Not a valid CPIO archive: magic not found" :=
  ⟨rfl, rfl⟩

/-- C3 (amended): the 4-byte junk-prefix skip holds for *uncompressed*
CPIO buffers.  If a 4-byte junk prefix does not itself form the gzip
magic or a CPIO magic window, and the bytes after it start with the CPIO
magic, `readCpioFromBuffer` parses from offset 4 and returns exactly the
entries of the unprefixed buffer. -/
theorem claim3_prefix_skip_amended (junk raw : List Nat) (hlen : junk.length = 4)
    (hgz : ¬ ((junk ++ raw).head? = some 0x1f ∧ (junk ++ raw).tail.head? = some 0x8b))
    (hm0 : ((jsSubarray (junk ++ raw) (JNum.int 0) (JNum.int 6)).map (· % 128)) ≠ cpioMagic)
    (hraw : ((jsSubarray raw (JNum.int 0) (JNum.int 6)).map (· % 128)) = cpioMagic) :
    readCpioFromBuffer (junk ++ raw) = Except.ok (parseCpioArchive raw) := by
  unfold readCpioFromBuffer
  rw [if_neg hgz]
  unfold readCpioRaw
  dsimp only
  rw [if_neg hm0, jsSubarray_shift4 junk raw hlen, if_pos hraw]
  rw [← hlen, List.drop_left]

/-- C3 witness: the amended prefix-skip theorem at the concrete junk
prefix `[1,2,3,4]` and the raw trailer-only archive. -/
theorem claim3_prefix_skip_amended_spot :
    readCpioFromBuffer ([1, 2, 3, 4] ++ cpioTrailerChunk) =
      Except.ok (parseCpioArchive cpioTrailerChunk) :=
  claim3_prefix_skip_amended [1, 2, 3, 4] cpioTrailerChunk rfl
    (by decide) (by decide) (by decide)

/-- C5: on a buffer whose header starts with the magic `070701` but has
non-hex characters in the `namesize` field, the reader neither raises any
error nor returns: `parseInt` yields `NaN`, `align4(NaN)` resets the offset
to `0`, and the loop re-reads the same header forever (so it never produces
the `ArchiveFormatError(bad-header)` the spec promises). -/
theorem claim5_bad_hex_header_diverges :
    parseCpioArchive badHexHeader = none ∧
      ∀ fuel acc, parseCpioLoop fuel badHexHeader 0 acc = none :=
  ⟨badHexHeader_loops _ _, fun fuel acc => badHexHeader_loops fuel acc⟩

/-! ## Wire-line connections (C10) -/

lemma recordSet_self {α : Type} (m : List (String × α)) (k : String) (v : α) :
    (k, v) ∈ recordSet m k v := by
  unfold recordSet
  split_ifs with h
  · rcases List.any_eq_true.mp h with ⟨kv, hkv, hk⟩
    refine List.mem_map.mpr ⟨kv, hkv, ?_⟩
    rw [if_pos (of_decide_eq_true hk)]
  · exact List.mem_append_right _ (List.mem_singleton.mpr rfl)

lemma recordSet_keep {α : Type} (m : List (String × α)) (k : String) (v : α)
    (kv : String × α) (hm : kv ∈ m) (hne : kv.1 ≠ k) : kv ∈ recordSet m k v := by
  unfold recordSet
  split_ifs with h
  · refine List.mem_map.mpr ⟨kv, hm, ?_⟩
    rw [if_neg hne]
  · exact List.mem_append_left _ hm

lemma splitFold_mem (key content : String) (post : List TextEntry) :
    ∀ (acc : List (String × String) × String),
      (key, content) ∈ acc.1 →
      (∀ e' ∈ post, isHeaderName (normalizeFilename e'.filename) = false →
        normalizeFilename e'.filename ≠ key) →
      (key, content) ∈ (post.foldl
        (fun (acc : List (String × String) × String) e =>
          let filename := normalizeFilename e.filename
          if isHeaderName filename then (acc.1, acc.2 ++ "\n" ++ e.content)
          else (recordSet acc.1 filename e.content, acc.2))
        acc).1 := by
  induction post with
  | nil => exact fun acc hacc _ => hacc
  | cons e' rest ih =>
    intro acc hacc hpost
    simp only [List.foldl_cons]
    refine ih _ ?_ (fun x hx h => hpost x (List.mem_cons_of_mem _ hx) h)
    dsimp only
    by_cases hh : isHeaderName (normalizeFilename e'.filename) = true
    · rw [if_pos hh]
      exact hacc
    · rw [if_neg hh]
      exact recordSet_keep _ _ _ _ hacc
        (Ne.symm (hpost e' (List.mem_cons_self _ _) (by simpa using hh)))

lemma connsFold_mono (c : HipConnection) (kvs : List (String × String)) :
    ∀ (acc : List HipNode × List HipConnection), c ∈ acc.2 →
      c ∈ (kvs.foldl
        (fun (acc : List HipNode × List HipConnection) kv =>
          if containsSub kv.2 "type" then
            (acc.1 ++ extractNodesFromContent kv.1 kv.2, acc.2 ++ extractConnections kv.1 kv.2)
          else acc)
        acc).2 := by
  induction kvs with
  | nil => exact fun acc h => h
  | cons kv rest ih =>
    intro acc h
    simp only [List.foldl_cons]
    apply ih
    by_cases hc : containsSub kv.2 "type" = true
    · rw [if_pos hc]
      exact List.mem_append_left _ h
    · rw [if_neg hc]
      exact h

lemma connsFold_mem (c : HipConnection) (key content : String)
    (hty : containsSub content "type" = true)
    (hc : c ∈ extractConnections key content) (kvs : List (String × String)) :
    ∀ (acc : List HipNode × List HipConnection), (key, content) ∈ kvs →
      c ∈ (kvs.foldl
        (fun (acc : List HipNode × List HipConnection) kv =>
          if containsSub kv.2 "type" then
            (acc.1 ++ extractNodesFromContent kv.1 kv.2, acc.2 ++ extractConnections kv.1 kv.2)
          else acc)
        acc).2 := by
  induction kvs with
  | nil => exact fun acc h => absurd h (List.not_mem_nil _)
  | cons kv rest ih =>
    intro acc hmem
    simp only [List.foldl_cons]
    rcases List.mem_cons.mp hmem with heq | hmem
    · cases heq
      apply connsFold_mono
      dsimp only
      rw [if_pos hty]
      exact List.mem_append_right _ hc
    · exact ih _ hmem

/-- C10 (counterexample): `parseHipContent` only extracts connections
from entries whose content contains the substring `"type"`.  The
non-header entry `obj/x` consists of one well-formed wire line; the wire
matcher resolves it to a connection, yet the parsed scene has no
connections at all. -/
theorem claim10_wire_skipped_counterexample :
    isHeaderName (normalizeFilename "obj/x") = false ∧
      extractConnections (normalizeFilename "obj/x") "wire /obj/a 0 /obj/b 1" =
        [{ fromNode := "/obj/a", fromOutput := 0, toNode := "/obj/b", toInput := 1 }] ∧
      (parseHipContent [⟨"obj/x", "wire /obj/a 0 /obj/b 1"⟩]).connections = [] := by
  exact ⟨rfl, by decide, by decide⟩

/-- C10 (amended): wire lines of a non-header entry do become
connections, provided the entry's content also contains the substring
`"type"` and no later non-header entry shares its normalized filename
(a later duplicate overwrites the entry in the filename-keyed map).
Every connection extracted from the entry — in particular one per
well-formed `wire <from> <fromOut> <to> <toIn>` line, resolved against
the entry's base path — appears in the parsed scene's connections. -/
theorem claim10_wire_amended (pre post : List TextEntry) (e : TextEntry) (c : HipConnection)
    (hhdr : isHeaderName (normalizeFilename e.filename) = false)
    (htype : containsSub e.content "type" = true)
    (hpost : ∀ e' ∈ post, isHeaderName (normalizeFilename e'.filename) = false →
      normalizeFilename e'.filename ≠ normalizeFilename e.filename)
    (hc : c ∈ extractConnections (normalizeFilename e.filename) e.content) :
    c ∈ (parseHipContent (pre ++ e :: post)).connections := by
  unfold parseHipContent
  dsimp only
  apply connsFold_mem c (normalizeFilename e.filename) e.content htype hc
  rw [List.foldl_append]
  simp only [List.foldl_cons]
  refine splitFold_mem _ _ post _ ?_ hpost
  dsimp only
  rw [if_neg (by simp [hhdr])]
  exact recordSet_self _ _ _

/-! ## Knowledge-base store (db.ts: hip_files / hip_parameter_snapshots)

The SQLite store behind `KnowledgeBase`.  Both tables are declared
`INTEGER PRIMARY KEY AUTOINCREMENT` (schema in plan.md; `schema.ts`
itself is not among the shipped sources), so rowids are allocated from a
per-table monotone counter and never reused.  `lastInsertRowid` is the
connection-level SQLite value: it is set by every successful `INSERT`
(into either table) and left untouched by `UPDATE` and `DELETE` — in
particular by the `ON CONFLICT ... DO UPDATE` path of the upsert. -/

/-- A row of `hip_files`.  `systems` is stored JSON-serialized in SQLite;
the serialization is injective on the lists the code produces, so the row
keeps the list itself. -/
structure HipRow where
  id : Nat
  file_name : String
  file_hash : String
  source : String
  source_url : Option String
  houdini_version : Option String
  description : Option String
  systems : Option (List String)
  node_count : Nat
  parsed_at : Option String
  parse_status : String
  parse_error : Option String
deriving DecidableEq, Repr

/-- A row of `hip_parameter_snapshots` (`is_default` is stored as the
integer `1`/`0` the code binds). -/
structure SnapRow where
  id : Nat
  hip_file_id : Nat
  node_type : String
  node_path : String
  param_name : String
  param_value : String
  is_default : Nat
  expression : Option String
deriving DecidableEq, Repr

/-- The database state plus the connection's `lastInsertRowid`. -/
structure Store where
  hipRows : List HipRow
  snapRows : List SnapRow
  nextHipId : Nat
  nextSnapId : Nat
  lastInsertRowid : Nat
deriving DecidableEq, Repr

/-- A freshly initialized database. -/
def emptyStore : Store := ⟨[], [], 1, 1, 0⟩

/-- The argument object of `upsertHipFile` (optional TS fields are
`Option`). -/
structure HipUpsert where
  file_name : String
  file_hash : String
  source : String
  source_url : Option String
  houdini_version : Option String
  description : Option String
  systems : Option (List String)
  node_count : Option Nat
  parsed_at : Option String
  parse_status : Option String
  parse_error : Option String
deriving DecidableEq, Repr

/-- The column values bound by `upsertHipFile` (`?? null` / `?? 0` /
`?? "pending"` defaults applied). -/
def HipUpsert.row (d : HipUpsert) (id : Nat) : HipRow :=
  ⟨id, d.file_name, d.file_hash, d.source, d.source_url, d.houdini_version,
    d.description, d.systems, d.node_count.getD 0, d.parsed_at,
    d.parse_status.getD "pending", d.parse_error⟩

/-- `upsertHipFile(data)` (db.ts): `INSERT ... ON CONFLICT(file_hash) DO
UPDATE SET` every column except the id, then
`return Number(result.lastInsertRowid)`.  On the conflicting (UPDATE)
path no row is inserted, so the returned `lastInsertRowid` is the stale
connection value, not the updated row's id. -/
def upsertHipFile (s : Store) (d : HipUpsert) : Nat × Store :=
  match s.hipRows.find? (fun r => r.file_hash = d.file_hash) with
  | some _ =>
    (s.lastInsertRowid,
      { s with hipRows := s.hipRows.map fun r =>
          if r.file_hash = d.file_hash then d.row r.id else r })
  | none =>
    (s.nextHipId,
      { s with hipRows := s.hipRows ++ [d.row s.nextHipId],
               nextHipId := s.nextHipId + 1,
               lastInsertRowid := s.nextHipId })

/-- `getHipFile(fileHash)` (db.ts). -/
def getHipFile (s : Store) (fileHash : String) : Option HipRow :=
  s.hipRows.find? (fun r => r.file_hash = fileHash)

/-- One element of `insertParameterSnapshots`' `snapshots` argument. -/
structure SnapInput where
  node_type : String
  node_path : String
  param_name : String
  param_value : String
  is_default : Option Bool
  expression : Option String
deriving DecidableEq, Repr

/-- `insertParameterSnapshots(hipFileId, snapshots)` (db.ts): one
`INSERT` per snapshot (`is_default ? 1 : 0`, `expression ?? null`); each
insert advances the snapshot rowid and the connection's
`lastInsertRowid`. -/
def insertParameterSnapshots (s : Store) (hipFileId : Nat) (snaps : List SnapInput) : Store :=
  snaps.foldl
    (fun s d =>
      let row : SnapRow :=
        ⟨s.nextSnapId, hipFileId, d.node_type, d.node_path, d.param_name,
          d.param_value, (if d.is_default = some true then 1 else 0), d.expression⟩
      { s with
        snapRows := s.snapRows ++ [row],
        nextSnapId := s.nextSnapId + 1,
        lastInsertRowid := s.nextSnapId })
    s

/-- `clearSnapshotsForHipFile(hipFileId)` (db.ts): `DELETE FROM
hip_parameter_snapshots WHERE hip_file_id = ?`. -/
def clearSnapshotsForHipFile (s : Store) (hipFileId : Nat) : Store :=
  { s with snapRows := s.snapRows.filter (fun r => ¬ r.hip_file_id = hipFileId) }

/-! ## SQLite REAL arithmetic and the statistics query -/

/-- An (unnormalized) rational, standing in for the SQLite REAL values
of `CAST`/`MIN`/`MAX`/`AVG` in `getParameterStatistics` (exact
arithmetic in place of binary doubles; the denominator is kept
positive). -/
structure QNum where
  num : Int
  den : Nat
deriving DecidableEq, Repr

/-- Order on `QNum` by cross-multiplication. -/
def QNum.le (a b : QNum) : Bool := decide (a.num * (b.den : Int) ≤ b.num * (a.den : Int))

/-- Sum. -/
def QNum.add (a b : QNum) : QNum := ⟨a.num * (b.den : Int) + b.num * (a.den : Int), a.den * b.den⟩

/-- Division by a (positive) count, for `AVG`. -/
def QNum.divNat (a : QNum) (n : Nat) : QNum := ⟨a.num, a.den * n⟩

/-- `CAST(text AS REAL)` (sqlite3AtoF): skip leading whitespace, then the
longest `[+-]? digits [. digits] [eE [+-] digits]` prefix; `0.0` when no
digit is found, and an `e` with no digits after it is ignored. -/
def castReal (s : String) : QNum :=
  let cs := s.data.dropWhile isWsChar
  let sr : Int × List Char :=
    match cs with
    | '-' :: r => (-1, r)
    | '+' :: r => (1, r)
    | _ => (1, cs)
  let d1 := takeDigits sr.2
  let r1 := sr.2.drop d1.length
  let fr : List Char × List Char :=
    match r1 with
    | '.' :: t => (takeDigits t, t.drop (takeDigits t).length)
    | _ => ([], r1)
  let eexp : Int :=
    match fr.2 with
    | c :: t =>
      if c = 'e' ∨ c = 'E' then
        let es : Int × List Char :=
          match t with
          | '-' :: u => (-1, u)
          | '+' :: u => (1, u)
          | _ => (1, t)
        let d3 := takeDigits es.2
        if d3 = [] then 0 else es.1 * (decDigitsVal d3 : Int)
      else 0
    | [] => 0
  if d1 = [] ∧ fr.1 = [] then ⟨0, 1⟩
  else
    let m : Int := sr.1 * (decDigitsVal (d1 ++ fr.1) : Int)
    let e : Int := eexp - fr.1.length
    if 0 ≤ e then ⟨m * ((10 ^ e.toNat : Nat) : Int), 1⟩ else ⟨m, 10 ^ (-e).toNat⟩

/-- `param_value GLOB '[0-9]*'`: first character a digit. -/
def globDigitStar (v : String) : Bool :=
  match v.data with
  | c :: _ => c.isDigit
  | [] => false

/-- `param_value GLOB '-[0-9]*'`. -/
def globNegDigitStar (v : String) : Bool :=
  match v.data with
  | '-' :: c :: _ => c.isDigit
  | _ => false

/-- Some `.` in the list is immediately followed by a digit. -/
def hasDotDigit : List Char → Bool
  | [] => false
  | c :: rest => (c = '.' && (rest.head?.elim false Char.isDigit)) || hasDotDigit rest

/-- `param_value GLOB '[0-9]*.[0-9]*'`: a digit first, and later a `.`
followed by a digit. -/
def globDecimal (v : String) : Bool :=
  match v.data with
  | c :: rest => c.isDigit && hasDotDigit rest
  | [] => false

/-- The numeric-looking test of the statistics `WHERE` clause. -/
def snapNumericGlob (v : String) : Bool :=
  globDigitStar v || globNegDigitStar v || globDecimal v

/-- `typeof(param_value)`: the column has TEXT affinity and every code
path binds a JavaScript string, so the stored type is always `text`. -/
def typeofParamValue (_ : SnapRow) : String := "text"

/-- A result row of `getParameterStatistics`. -/
structure StatRow where
  param_name : String
  sample_count : Nat
  min_value : QNum
  max_value : QNum
  avg_value : QNum
  modified_count : Nat
deriving DecidableEq, Repr

/-- `MIN` over a (nonempty) group. -/
def qmin (l : List QNum) : QNum :=
  match l with
  | [] => ⟨0, 1⟩
  | v :: vs => vs.foldl (fun a b => if QNum.le a b then a else b) v

/-- `MAX` over a (nonempty) group. -/
def qmax (l : List QNum) : QNum :=
  match l with
  | [] => ⟨0, 1⟩
  | v :: vs => vs.foldl (fun a b => if QNum.le a b then b else a) v

/-- `SUM`. -/
def qsum (l : List QNum) : QNum := l.foldl QNum.add ⟨0, 1⟩

/-- Stable descending insertion by `sample_count` (`ORDER BY
sample_count DESC`; SQLite leaves ties unspecified, first-appearance
order is used here). -/
def insertBySamples (r : StatRow) : List StatRow → List StatRow
  | [] => [r]
  | x :: xs => if x.sample_count < r.sample_count then r :: x :: xs else x :: insertBySamples r xs

/-- Sort result rows by descending `sample_count`. -/
def sortBySamples : List StatRow → List StatRow
  | [] => []
  | x :: xs => insertBySamples x (sortBySamples xs)

/-- `getParameterStatistics(nodeType, paramName?)` (db.ts).  The SQL
`WHERE` clause is, with SQLite's precedence (`AND` binds tighter than
`OR`):
`(node_type = ? AND typeof(param_value) != 'text') OR (numeric GLOBs)`,
and when `paramName` is passed (JS truthiness: a non-empty string) the
appended `AND param_name = ?` attaches to the `OR`'s right operand. -/
def getParameterStatistics (s : Store) (nodeType : String) (paramName : Option String) :
    List StatRow :=
  let pred : SnapRow → Bool := fun r =>
    let base := decide (r.node_type = nodeType) && decide (typeofParamValue r ≠ "text")
    match paramName with
    | some p =>
      if p = "" then base || snapNumericGlob r.param_value
      else base || (snapNumericGlob r.param_value && decide (r.param_name = p))
    | none => base || snapNumericGlob r.param_value
  let rows := s.snapRows.filter pred
  let keys := rows.foldl
    (fun ks r => if r.param_name ∈ ks then ks else ks ++ [r.param_name]) []
  sortBySamples (keys.map fun p =>
    let g := rows.filter (fun r => r.param_name = p)
    let vals := g.map (fun r => castReal r.param_value)
    { param_name := p, sample_count := g.length,
      min_value := qmin vals, max_value := qmax vals,
      avg_value := QNum.divNat (qsum vals) g.length,
      modified_count := (g.filter (fun r => r.is_default = 0)).length })

/-! ## The HIP extractor (hip-downloader.ts, extractor part) -/

/-- Decimal digits of a natural number. -/
def natDigitsAux : Nat → Nat → List Char
  | 0, _ => []
  | fuel + 1, n => if n = 0 then [] else natDigitsAux fuel (n / 10) ++ [Char.ofNat (48 + n % 10)]

/-- Decimal digit characters (no leading zeros; `0` for zero). -/
def natDigits (n : Nat) : List Char := if n = 0 then ['0'] else natDigitsAux (n + 1) n

/-- ECMAScript `Number::toString` in base 10 on a finite decimal value
(`s·10^(n-k)` with `k` digits `s` and decimal exponent `n`): plain
digits with zeros for `k ≤ n ≤ 21`, an inner decimal point for
`0 < n ≤ 21`, a leading `0.` for `-6 < n ≤ 0`, exponent notation
otherwise. -/
def decNumRender (d : DecNum) : String :=
  if d.mant = 0 then "0"
  else
    let ds := natDigits d.mant.natAbs
    let k : Int := ds.length
    let n : Int := k + d.exp10
    let body :=
      if k ≤ n ∧ n ≤ 21 then ds ++ List.replicate (n - k).toNat '0'
      else if 0 < n ∧ n ≤ 21 then ds.take n.toNat ++ '.' :: ds.drop n.toNat
      else if -6 < n ∧ n ≤ 0 then '0' :: '.' :: (List.replicate (-n).toNat '0' ++ ds)
      else
        let mantPart :=
          match ds with
          | [c] => [c]
          | c :: rest => c :: '.' :: rest
          | [] => ds
        mantPart ++ 'e' ::
          (if 0 ≤ n - 1 then '+' :: natDigits (n - 1).toNat else '-' :: natDigits (1 - n).toNat)
    String.mk (if d.mant < 0 then '-' :: body else body)

/-- JavaScript `String(number)`. -/
def jsStringOfNumber : JsNumber → String
  | JsNumber.nan => "NaN"
  | JsNumber.inf b => if b then "Infinity" else "-Infinity"
  | JsNumber.fin d => decNumRender d

/-- `JSON.stringify` of one number (`null` for non-finite values). -/
def jsonOfNumber : JsNumber → String
  | JsNumber.fin d => decNumRender d
  | _ => "null"

/-- The extractor's per-parameter value string:
`typeof value === "object" ? JSON.stringify(value) : String(value)`. -/
def extValueStr : PValue → String
  | PValue.num n => jsStringOfNumber n
  | PValue.nums l => "[" ++ String.intercalate "," (l.map jsonOfNumber) ++ "]"
  | PValue.str s => s

/-- Append-if-absent (insertion-ordered `Set.add`). -/
def addSys (l : List String) (s : String) : List String :=
  if s ∈ l then l else l ++ [s]

/-- `inferSystemsFromNodes(nodes)` (hip-downloader.ts). -/
def inferSystemsFromNodes (nodes : List HipNode) : List String :=
  nodes.foldl
    (fun acc node =>
      let typeLower := toLowerStr node.type
      let acc := if containsSub typeLower "pyro" || containsSub typeLower "smoke" ||
          containsSub typeLower "fire" then addSys acc "pyro" else acc
      let acc := if containsSub typeLower "rbd" || containsSub typeLower "bullet" ||
          containsSub typeLower "voronoi" then addSys acc "rbd" else acc
      let acc := if containsSub typeLower "flip" || containsSub typeLower "ocean" ||
          containsSub typeLower "fluid" then addSys acc "flip" else acc
      if containsSub typeLower "vellum" || containsSub typeLower "cloth"
        then addSys acc "vellum" else acc)
    []

/-- The `fileEntry` argument of `extractHipToKnowledgeBase`. -/
structure FileEntryInfo where
  fileName : String
  fileHash : String
  source : String
  sourceUrl : Option String
  systems : Option (List String)
  description : Option String
deriving DecidableEq, Repr

/-- The `ExtractionResult` record. -/
structure ExtractionResult where
  hipFileId : Nat
  nodesExtracted : Nat
  parametersExtracted : Nat
  nonDefaultParams : Nat
  expressionsFound : Nat
  errors : List String
deriving DecidableEq, Repr

/-- `extractHipToKnowledgeBase(parsed, fileEntry, kb)`
(hip-downloader.ts): upsert the file record with status `success`
(`parsed_at` is the wall clock, passed as `now`), clear the snapshots of
the id the upsert *returned*, build one snapshot per node parameter, and
bulk-insert them under that same returned id.  The model's inserts never
throw, so `errors` is always empty. -/
def extractHipToKnowledgeBase (now : String) (parsed : HipParseResult)
    (fe : FileEntryInfo) (kb : Store) : ExtractionResult × Store :=
  let up := upsertHipFile kb
    { file_name := fe.fileName, file_hash := fe.fileHash, source := fe.source,
      source_url := fe.sourceUrl,
      houdini_version := if parsed.hipVersion = "" then none else some parsed.hipVersion,
      description := fe.description,
      systems := some (match fe.systems with
        | some l => l
        | none => inferSystemsFromNodes parsed.nodes),
      node_count := some parsed.nodes.length, parsed_at := some now,
      parse_status := some "success", parse_error := none }
  let hipFileId := up.1
  let s2 := clearSnapshotsForHipFile up.2 hipFileId
  let allParams := (parsed.nodes.map (fun node =>
    node.parameters.map (fun param =>
      ({ node_type := node.type, node_path := node.path, param_name := param.name,
         param_value := extValueStr param.value, is_default := some param.isDefault,
         expression := param.expression } : SnapInput)))).flatten
  let s3 := insertParameterSnapshots s2 hipFileId allParams
  ({ hipFileId := hipFileId, nodesExtracted := parsed.nodes.length,
     parametersExtracted := allParams.length,
     nonDefaultParams := ((parsed.nodes.map (fun n => n.parameters)).flatten).countP
       (fun p => !p.isDefault),
     expressionsFound := ((parsed.nodes.map (fun n => n.parameters)).flatten).countP
       (fun p => match p.expression with
         | some e => decide (e ≠ "")
         | none => false),
     errors := [] }, s3)

/-! ## Cache entries and the batch extractor -/

/-- `HipFileEntry` (hip-downloader.ts); `downloadedAt` is the timestamp
the code only ever compares through `new Date(...).getTime()`, kept as a
number. -/
structure HipFileEntry where
  source : String
  sourceType : String
  localPath : String
  fileName : String
  hash : String
  size : Nat
  downloadedAt : Nat
  systems : List String
  description : Option String
deriving DecidableEq, Repr

/-- The counters returned by `extractAllHipFiles`. -/
structure ExtractTotals where
  extracted : Nat
  errors : Nat
  totalParams : Nat
  totalNonDefault : Nat
deriving DecidableEq, Repr

/-- One iteration of the `extractAllHipFiles` loop.  `parse` is the
parsing oracle for `parseHipFile(entry.localPath)` — an `error` covers
both the missing-file throw and an `ArchiveFormatError` — and `now` the
wall clock.  A cached `success` record skips the entry; a parse error is
recorded by upserting the record with status `error` and the message;
otherwise the entry is extracted. -/
def extractAllStep (parse : HipFileEntry → Except String HipParseResult) (now : String)
    (acc : Store × ExtractTotals) (entry : HipFileEntry) : Store × ExtractTotals :=
  let kb := acc.1
  let t := acc.2
  let cached :=
    match getHipFile kb entry.hash with
    | some r => decide (r.parse_status = "success")
    | none => false
  if cached then (kb, { t with extracted := t.extracted + 1 })
  else
    match parse entry with
    | Except.ok parsed =>
      let res := extractHipToKnowledgeBase now parsed
        { fileName := entry.fileName, fileHash := entry.hash, source := entry.sourceType,
          sourceUrl := some entry.source, systems := some entry.systems,
          description := entry.description } kb
      if res.1.errors.length = 0 then
        (res.2, { t with extracted := t.extracted + 1,
                         totalParams := t.totalParams + res.1.parametersExtracted,
                         totalNonDefault := t.totalNonDefault + res.1.nonDefaultParams })
      else (res.2, { t with errors := t.errors + 1 })
    | Except.error msg =>
      let up := upsertHipFile kb
        { file_name := entry.fileName, file_hash := entry.hash, source := entry.sourceType,
          source_url := some entry.source, houdini_version := none, description := none,
          systems := some entry.systems, node_count := none, parsed_at := some now,
          parse_status := some "error", parse_error := some msg }
      (up.2, { t with errors := t.errors + 1 })

/-- `extractAllHipFiles(options)` (hip-downloader.ts): fold the step
over the entries. -/
def extractAllHipFiles (parse : HipFileEntry → Except String HipParseResult) (now : String)
    (entries : List HipFileEntry) (kb : Store) : Store × ExtractTotals :=
  entries.foldl (extractAllStep parse now) (kb, ⟨0, 0, 0, 0⟩)

/-- The five columns the spec compares snapshot multisets on. -/
def snapProj (r : SnapRow) : String × String × String × Nat × Option String :=
  (r.node_path, r.param_name, r.param_value, r.is_default, r.expression)

/-! ## The download cache (hip-downloader.ts, cache part)

The filesystem is a set of existing paths plus the saved manifest; the
manifest (a JSON object keyed by URL) is an insertion-ordered
association list, like every JS object in this development. -/

/-- The cache directory's on-disk state. -/
structure CacheState where
  files : List String
  manifest : List (String × HipFileEntry)
deriving DecidableEq, Repr

/-- `manifest.entries[url]`. -/
def manifestGet (m : List (String × HipFileEntry)) (k : String) : Option HipFileEntry :=
  (m.find? (fun kv => kv.1 = k)).map (fun kv => kv.2)

/-- `delete manifest.entries[key]`. -/
def recordDelete (m : List (String × HipFileEntry)) (k : String) :
    List (String × HipFileEntry) :=
  m.filter (fun kv => ¬ kv.1 = k)

/-- Stable insertion for the ascending `downloadedAt` sort
(`Array.prototype.sort` is stable; the comparator is the timestamp
difference). -/
def insertByTime (e : String × HipFileEntry) :
    List (String × HipFileEntry) → List (String × HipFileEntry)
  | [] => [e]
  | x :: xs =>
    if e.2.downloadedAt < x.2.downloadedAt then e :: x :: xs else x :: insertByTime e xs

/-- Sort manifest entries by ascending `downloadedAt`. -/
def sortByTime : List (String × HipFileEntry) → List (String × HipFileEntry)
  | [] => []
  | x :: xs => insertByTime x (sortByTime xs)

/-- The `while (totalSize > maxSize && sortedEntries.length > 0)` loop of
`enforceCacheLimit`: shift the oldest entry, unlink its file and delete
its manifest key. -/
def enforceLoop (maxSize : Nat) :
    List (String × HipFileEntry) → Nat → CacheState → CacheState
  | [], _, st => st
  | (k, e) :: rest, total, st =>
    if maxSize < total then
      enforceLoop maxSize rest (total - e.size)
        { files := st.files.filter (fun p => ¬ p = e.localPath),
          manifest := recordDelete st.manifest k }
    else st

/-- `enforceCacheLimit(cacheDir, manifest, maxSize)` (hip-downloader.ts):
sum the sizes over the time-sorted entries, then evict oldest-first while
over the limit. -/
def enforceCacheLimit (st : CacheState) (maxSize : Nat) : CacheState :=
  let sorted := sortByTime st.manifest
  enforceLoop maxSize sorted ((sorted.map (fun kv => kv.2.size)).sum) st

/-- `sanitizeFilename(name)`: keep `[a-zA-Z0-9._-]`, replace the rest by
`_`, truncate to 100 characters. -/
def sanitizeFilename (name : String) : String :=
  String.mk ((name.data.map fun c =>
    if c.isAlphanum || c = '.' || c = '_' || c = '-' then c else '_').take 100)

/-- `path.join` on a directory without trailing slash. -/
def pathJoin (a b : String) : String := a ++ "/" ++ b

/-- One element of `downloadHipFiles`' `urls` argument. -/
structure UrlReq where
  url : String
  sourceType : Option String
  systems : Option (List String)
  description : Option String
deriving DecidableEq, Repr

/-- `downloadHipFile(url, options)` (hip-downloader.ts).  `fetchO` is the
network oracle (`none` = non-OK response or thrown fetch error; `some`
gives the body's byte length and SHA-256 hex), `now` the wall clock.  A
cached entry whose file exists is returned as-is; a stale manifest entry
is dropped, but that drop is only persisted by the `saveManifest` of a
successful download.  The URLs considered carry no percent-escapes, so
`decodeURIComponent` is the identity and is elided. -/
def downloadHipFile (fetchO : String → Option (Nat × String)) (cacheDir : String)
    (now : Nat) (st : CacheState) (req : UrlReq) : Option HipFileEntry × CacheState :=
  let proceed := fun (manifest0 : List (String × HipFileEntry)) =>
    match fetchO req.url with
    | none => (none, st)
    | some sh =>
      let fileName := String.mk ((splitPred (fun c => c = '/') req.url.data).getLastD [])
      let localPath :=
        pathJoin cacheDir (String.mk (sh.2.data.take 12) ++ "-" ++ sanitizeFilename fileName)
      let entry : HipFileEntry :=
        { source := req.url, sourceType := req.sourceType.getD "content_library",
          localPath := localPath, fileName := fileName, hash := sh.2, size := sh.1,
          downloadedAt := now, systems := req.systems.getD [],
          description := req.description }
      (some entry,
        { files := if localPath ∈ st.files then st.files else st.files ++ [localPath],
          manifest := recordSet manifest0 req.url entry })
  match manifestGet st.manifest req.url with
  | some cached =>
    if cached.localPath ∈ st.files then (some cached, st)
    else proceed (recordDelete st.manifest req.url)
  | none => proceed st.manifest

/-- The `DownloadResult` record of `downloadHipFiles`. -/
structure DlResult where
  downloaded : Nat
  skipped : Nat
  errors : Nat
  entries : List HipFileEntry
deriving DecidableEq, Repr

/-- The `downloadHipFiles` loop: per URL, reload the manifest, skip a
cached entry whose file exists, otherwise enforce the cache limit (and
persist it) *before* downloading.  `clock i` is the wall time at
iteration `i`. -/
def downloadFilesLoop (fetchO : String → Option (Nat × String)) (clock : Nat → Nat)
    (cacheDir : String) (maxCacheSize : Nat) :
    List UrlReq → Nat → DlResult × CacheState → DlResult × CacheState
  | [], _, acc => acc
  | req :: rest, i, acc =>
    let res := acc.1
    let st := acc.2
    let notCached := fun (_ : Unit) =>
      let st1 := enforceCacheLimit st maxCacheSize
      let dl := downloadHipFile fetchO cacheDir (clock i) st1 req
      match dl.1 with
      | some entry =>
        downloadFilesLoop fetchO clock cacheDir maxCacheSize rest (i + 1)
          ({ res with downloaded := res.downloaded + 1,
                      entries := res.entries ++ [entry] }, dl.2)
      | none =>
        downloadFilesLoop fetchO clock cacheDir maxCacheSize rest (i + 1)
          ({ res with errors := res.errors + 1 }, dl.2)
    match manifestGet st.manifest req.url with
    | some cached =>
      if cached.localPath ∈ st.files then
        downloadFilesLoop fetchO clock cacheDir maxCacheSize rest (i + 1)
          ({ res with skipped := res.skipped + 1,
                      entries := res.entries ++ [cached] }, st)
      else notCached ()
    | none => notCached ()

/-- `downloadHipFiles(urls, options)` (hip-downloader.ts). -/
def downloadHipFiles (fetchO : String → Option (Nat × String)) (clock : Nat → Nat)
    (cacheDir : String) (maxCacheSize : Nat) (urls : List UrlReq) (st : CacheState) :
    DlResult × CacheState :=
  downloadFilesLoop fetchO clock cacheDir maxCacheSize urls 0 (⟨0, 0, 0, []⟩, st)

/-- The network oracle of the C6 scenario: four URLs, each serving a
400-byte file. -/
def c6fetch : String → Option (Nat × String) := fun u =>
  if u = "https://ex/a.hip" then some (400, "aaaaaaaaaaaaaaaa")
  else if u = "https://ex/b.hip" then some (400, "bbbbbbbbbbbbbbbb")
  else if u = "https://ex/c.hip" then some (400, "cccccccccccccccc")
  else if u = "https://ex/d.hip" then some (400, "dddddddddddddddd")
  else none

/-- The three requests of the C6 scenario, acquired at times 1 < 2 < 3. -/
def c6reqs : List UrlReq :=
  [⟨"https://ex/a.hip", none, none, none⟩, ⟨"https://ex/b.hip", none, none, none⟩,
    ⟨"https://ex/c.hip", none, none, none⟩]

/-- The cache state after downloading the three 400-byte entries with a
1000-byte budget into an empty cache. -/
def c6state : CacheState :=
  (downloadHipFiles c6fetch (fun i => i + 1) "cache" 1000 c6reqs ⟨[], []⟩).2

/-- A store with one registered HIP file and one snapshot each for two
different node types, both numeric-looking, sharing the parameter name
`x`. -/
def c7Store : Store :=
  { hipRows := [⟨1, "a.hip", "h1", "content_library", none, none, none, none, 1, none,
      "success", none⟩],
    snapRows := [⟨1, 1, "nodeA", "/obj/a1", "x", "1", 0, none⟩,
      ⟨2, 1, "nodeB", "/obj/b1", "x", "3", 1, none⟩],
    nextHipId := 2, nextSnapId := 3, lastInsertRowid := 2 }

/-- C7: the statistics for node type `nodeA` are contaminated by the
`nodeB` snapshot.  `param_value` always has SQLite type `text`, so the
`node_type = ? AND typeof(param_value) != 'text'` conjunct is always
false and — `AND` binding tighter than `OR` — the `WHERE` clause
degenerates to the numeric GLOB test over every node type: the sample
count is 2 and the maximum 3 comes from `nodeB`, though only one
snapshot has `node_type = 'nodeA'`. -/
theorem claim7_stats_cross_type_contamination :
    ((getParameterStatistics c7Store "nodeA" none).map
        (fun r => (r.param_name, r.sample_count, r.min_value, r.max_value, r.modified_count)))
      = [("x", 2, ⟨1, 1⟩, ⟨3, 1⟩, 1)] ∧
      (c7Store.snapRows.filter (fun r => r.node_type = "nodeA")).length = 1 ∧
      (c7Store.snapRows.filter (fun r => ¬ r.node_type = "nodeA")).map (fun r => castReal r.param_value)
        = [⟨3, 1⟩] := by
  exact ⟨by decide, by decide, by decide⟩

/-- A one-node scene with two string-valued parameters. -/
def c8Parsed : HipParseResult :=
  { hipVersion := "20.5.332", saveTime := "", metadata := [], connections := [],
    nodes := [{ path := "/obj/geo1/solver", type := "pyrosolver::2.0", category := "DOP",
                name := "solver",
                parameters := [
                  { name := "dissipation", value := PValue.str "0.05", isDefault := false,
                    expression := none },
                  { name := "cooling", value := PValue.str "0.3", isDefault := true,
                    expression := none }],
                flags := [] }] }

/-- The file entry the scene is extracted for. -/
def c8Entry : FileEntryInfo :=
  { fileName := "a.hip", fileHash := "h8", source := "content_library",
    sourceUrl := some "https://example/a.hip", systems := some ["pyro"], description := none }

/-- The store after extracting `c8Parsed` once into a fresh database. -/
def c8first : ExtractionResult × Store :=
  extractHipToKnowledgeBase "t1" c8Parsed c8Entry emptyStore

/-- The store after extracting the identical scene a second time. -/
def c8second : ExtractionResult × Store :=
  extractHipToKnowledgeBase "t2" c8Parsed c8Entry c8first.2

/-- C8: re-extracting the identical scene does not leave the snapshot
table identical — it duplicates it.  The first extraction inserts the
record with rowid 1 and two snapshots (rowids 1, 2), leaving the
connection's `lastInsertRowid` at 2.  The second upsert takes the
`ON CONFLICT` UPDATE path, inserts nothing, and returns the stale
`lastInsertRowid` 2, so the extractor clears and re-inserts the batch
under the bogus id 2: the record's old snapshots (id 1) are never
deleted and the table ends with both copies. -/
theorem claim8_reextract_duplicates :
    c8first.1.hipFileId = 1 ∧
      (c8first.2.hipRows.map (fun r => r.id)) = [1] ∧
      c8second.1.hipFileId = 2 ∧
      (c8first.2.snapRows.map snapProj) =
        [("/obj/geo1/solver", "dissipation", "0.05", 0, none),
         ("/obj/geo1/solver", "cooling", "0.3", 1, none)] ∧
      (c8second.2.snapRows.map snapProj) =
        [("/obj/geo1/solver", "dissipation", "0.05", 0, none),
         ("/obj/geo1/solver", "cooling", "0.3", 1, none),
         ("/obj/geo1/solver", "dissipation", "0.05", 0, none),
         ("/obj/geo1/solver", "cooling", "0.3", 1, none)] ∧
      ((c8second.2.snapRows.filter (fun r => r.hip_file_id = 1)).map snapProj) =
        (c8first.2.snapRows.map snapProj) := by
  refine ⟨rfl, by decide, rfl, by decide, by decide, by decide⟩

lemma upsertHipFile_snapRows (s : Store) (d : HipUpsert) :
    (upsertHipFile s d).2.snapRows = s.snapRows := by
  unfold upsertHipFile
  split <;> rfl

lemma upsertHipFile_hasRow (s : Store) (d : HipUpsert) :
    ∃ r ∈ (upsertHipFile s d).2.hipRows,
      r.file_hash = d.file_hash ∧ r.parse_status = d.parse_status.getD "pending" ∧
        r.parse_error = d.parse_error := by
  unfold upsertHipFile
  cases hf : s.hipRows.find? (fun r => r.file_hash = d.file_hash) with
  | some r0 =>
    dsimp only
    refine ⟨d.row r0.id, List.mem_map.mpr ⟨r0, List.mem_of_find?_eq_some hf, ?_⟩, rfl, rfl, rfl⟩
    have hp := List.find?_some hf
    simp only [decide_eq_true_eq] at hp
    rw [if_pos hp]
  | none =>
    exact ⟨d.row s.nextHipId, List.mem_append_right _ (List.mem_singleton.mpr rfl),
      rfl, rfl, rfl⟩

lemma extractAllStep_error (parse : HipFileEntry → Except String HipParseResult)
    (now : String) (acc : Store × ExtractTotals) (bad : HipFileEntry) (msg : String)
    (herr : parse bad = Except.error msg)
    (hnc : ∀ r ∈ acc.1.hipRows, r.file_hash = bad.hash → r.parse_status ≠ "success") :
    extractAllStep parse now acc bad =
      ((upsertHipFile acc.1
          { file_name := bad.fileName, file_hash := bad.hash, source := bad.sourceType,
            source_url := some bad.source, houdini_version := none, description := none,
            systems := some bad.systems, node_count := none, parsed_at := some now,
            parse_status := some "error", parse_error := some msg }).2,
        { acc.2 with errors := acc.2.errors + 1 }) := by
  unfold extractAllStep
  dsimp only
  have hcached : (match getHipFile acc.1 bad.hash with
      | some r => decide (r.parse_status = "success")
      | none => false) = false := by
    cases hg : getHipFile acc.1 bad.hash with
    | none => rfl
    | some r =>
      unfold getHipFile at hg
      have hmem : r ∈ acc.1.hipRows := List.mem_of_find?_eq_some hg
      have hp := List.find?_some hg
      simp only [decide_eq_true_eq] at hp
      exact decide_eq_false (hnc r hmem hp)
  rw [hcached, if_neg (by decide : ¬ false = true), herr]

/-- C9: when parsing an archive raises (the oracle `parse` returns
`error msg`, covering both the missing-file throw and
`ArchiveFormatError`) and the file is not already recorded as a
`success`, the batch extractor's step (1) leaves the snapshot table
untouched, (2) upserts the HIP file record with parse status `error`
and the error message, and (3) the batch goes on to process the
remaining entries from that state instead of aborting. -/
theorem claim9_error_isolation (parse : HipFileEntry → Except String HipParseResult)
    (now : String) (pre post : List HipFileEntry) (bad : HipFileEntry) (msg : String)
    (kb0 : Store) (herr : parse bad = Except.error msg)
    (hnc : ∀ r ∈ (extractAllHipFiles parse now pre kb0).1.hipRows,
      r.file_hash = bad.hash → r.parse_status ≠ "success") :
    (extractAllStep parse now (extractAllHipFiles parse now pre kb0) bad).1.snapRows
        = (extractAllHipFiles parse now pre kb0).1.snapRows ∧
      (∃ r ∈ (extractAllStep parse now (extractAllHipFiles parse now pre kb0) bad).1.hipRows,
        r.file_hash = bad.hash ∧ r.parse_status = "error" ∧ r.parse_error = some msg) ∧
      extractAllHipFiles parse now (pre ++ bad :: post) kb0 =
        post.foldl (extractAllStep parse now)
          (extractAllStep parse now (extractAllHipFiles parse now pre kb0) bad) := by
  have hstep := extractAllStep_error parse now (extractAllHipFiles parse now pre kb0)
    bad msg herr hnc
  refine ⟨?_, ?_, ?_⟩
  · rw [hstep]
    exact upsertHipFile_snapRows _ _
  · rw [hstep]
    exact upsertHipFile_hasRow _ _
  · unfold extractAllHipFiles
    rw [List.foldl_append, List.foldl_cons]

/-- An entry whose archive the oracle rejects. -/
def c9bad : HipFileEntry :=
  ⟨"https://example/a.hip", "content_library", "/cache/ab-a.hip", "a.hip", "h9", 100, 1,
    ["pyro"], none⟩

/-- A parse oracle that always raises the reader's format error. -/
def c9parse : HipFileEntry → Except String HipParseResult :=
  fun _ => Except.error "Not a valid CPIO archive: magic not found"

/-- C9 witness: the error-isolation theorem on a one-entry batch over a
fresh database. -/
theorem claim9_error_isolation_spot :
    (extractAllStep c9parse "t" (extractAllHipFiles c9parse "t" [] emptyStore) c9bad).1.snapRows
        = (extractAllHipFiles c9parse "t" [] emptyStore).1.snapRows ∧
      (∃ r ∈ (extractAllStep c9parse "t"
          (extractAllHipFiles c9parse "t" [] emptyStore) c9bad).1.hipRows,
        r.file_hash = c9bad.hash ∧ r.parse_status = "error" ∧
          r.parse_error = some "Not a valid CPIO archive: magic not found") ∧
      extractAllHipFiles c9parse "t" ([] ++ c9bad :: []) emptyStore =
        List.foldl (extractAllStep c9parse "t")
          (extractAllStep c9parse "t" (extractAllHipFiles c9parse "t" [] emptyStore) c9bad)
          [] :=
  claim9_error_isolation c9parse "t" [] [] c9bad
    "Not a valid CPIO archive: magic not found" emptyStore rfl (by decide)

/-- C6 (counterexample): after the third 400-byte entry is added under a
1000-byte budget, nothing has been evicted: the manifest still holds all
three entries (timestamps 1, 2, 3) and the total size is 1200, not the
claimed 800 — `downloadHipFiles` enforces the limit *before* each
download, when the total (800) is still within budget. -/
theorem claim6_third_add_counterexample :
    (c6state.manifest.map (fun kv => kv.1)) =
        ["https://ex/a.hip", "https://ex/b.hip", "https://ex/c.hip"] ∧
      ((c6state.manifest.map (fun kv => kv.2.size)).sum) = 1200 ∧
      (c6state.manifest.map (fun kv => kv.2.downloadedAt)) = [1, 2, 3] := by
  exact ⟨by decide, by decide, by decide⟩

/-- C6 (amended): the eviction the claim describes happens at the start
of the *next* (fourth) acquisition.  From the 1200-byte three-entry
state, `enforceCacheLimit` evicts exactly the oldest (t1) entry, leaving
the t2 and t3 entries with a total of 800; a fourth download triggers
that eviction before adding its own entry, ending with t2, t3 and the
new entry in the manifest. -/
theorem claim6_evicts_at_next_acquisition :
    ((enforceCacheLimit c6state 1000).manifest.map (fun kv => kv.1)) =
        ["https://ex/b.hip", "https://ex/c.hip"] ∧
      ((enforceCacheLimit c6state 1000).manifest.map (fun kv => kv.2.size)).sum = 800 ∧
      ((downloadHipFiles c6fetch (fun i => i + 4) "cache" 1000
          [⟨"https://ex/d.hip", none, none, none⟩] c6state).2.manifest.map (fun kv => kv.1)) =
        ["https://ex/b.hip", "https://ex/c.hip", "https://ex/d.hip"] := by
  exact ⟨by decide, by decide, by decide⟩

/-- C10 witness: the amended theorem at a one-entry scene whose content
holds a `type` line and one wire line. -/
theorem claim10_wire_amended_spot :
    (⟨"/obj/a", 0, "/obj/b", 1⟩ : HipConnection) ∈
      (parseHipContent [⟨"obj/x", "type = merge\nwire /obj/a 0 /obj/b 1"⟩]).connections :=
  claim10_wire_amended [] [] ⟨"obj/x", "type = merge\nwire /obj/a 0 /obj/b 1"⟩
    ⟨"/obj/a", 0, "/obj/b", 1⟩ (by decide) (by decide)
    (fun e' h => absurd h (List.not_mem_nil _)) (by decide)

end HClaw
